import Mathlib

/-!
# Park55 financial projection engine — verification of the specification

Shallow embedding, over exact rationals, of the core calculation pipeline of
the repository's two near-duplicate implementations:

* `src/app.py`       — namespace `App`  (horizon 35 years)
* `src/park55-app.py`— namespace `P55`  (horizon 30 years)

Embedded components: `calculate_investment`, `calculate_financing_schedule`
(bank annuity loan; KfW subsidized loan in the annuity and bullet regimes),
`calculate_depreciation_schedule`, `calculate_annuity`, and the error policy
of `calculate_irr`.  Machine floats are idealized as `ℚ`; the Python
constants 0.065, 0.40, 0.50, 0.09, 0.07, 0.02, 1.4, 650, 0.01 appear as the
exact rationals they denote.  A raising `npf.pmt` / `npf.irr` call is
modelled by an `Option`/sum-typed result of the routine.
-/

/-- One row of the financing table: interest, principal repayment and
year-end outstanding balance of a single loan ("Zins", "Tilgung",
"Restschuld"). -/
structure Row3 where
  zins : ℚ
  tilg : ℚ
  rest : ℚ
  deriving DecidableEq, Repr

/-- Loop state of a loan schedule: outstanding balance and the annuity
currently in force (`restschuld`, `annuitaet_kfw`). -/
structure LoanState where
  rest : ℚ
  annu : ℚ
  deriving DecidableEq, Repr

/-- The mathematical fixed-payment annuity: what `-npf.pmt rate n pv`
returns, and also what both manual fallback formulas in the source compute
(`principal * (q**n * (q-1)) / (q**n - 1)` with `q = 1 + rate`, degraded to
`pv / n` at rate 0). -/
def annuityFormula (r : ℚ) (n : ℕ) (pv : ℚ) : ℚ :=
  if r = 0 then pv / n else pv * ((1 + r) ^ n * r) / ((1 + r) ^ n - 1)

/-- app.py `calculate_annuity` in the situation where `npf.pmt` is available
and succeeds (its result then equals `annuityFormula`); guards
`principal <= 0 or periods <= 0` return 0. -/
def calculate_annuity (principal r : ℚ) (periods : ℕ) : ℚ :=
  if principal ≤ 0 ∨ periods = 0 then 0 else annuityFormula r periods principal

/-- app.py `calculate_annuity`, exception behaviour made explicit:
`pmtResult = none` models `npf.pmt` raising, in which case the function logs
and falls through to the manual closed-form fallback — it never raises. -/
def calculate_annuity_pmt (irrEnabled : Bool) (pmtResult : Option ℚ)
    (principal r : ℚ) (periods : ℕ) : ℚ :=
  if principal ≤ 0 ∨ periods = 0 then 0
  else
    match irrEnabled, pmtResult with
    | true, some v => v
    | _, _ =>
      if r = 0 then principal / periods
      else principal * ((1 + r) ^ periods * r) / ((1 + r) ^ periods - 1)

/-- Generic driver of the year loops in `calculate_financing_schedule`:
`schedStates step init j` is the loop state after the iteration for year
`j`, starting from `init` before year 1. -/
def schedStates (step : ℕ → LoanState → Row3 × LoanState) (init : LoanState) :
    ℕ → LoanState
  | 0 => init
  | j + 1 => (step (j + 1) (schedStates step init j)).2

/-- The table row the loop appends for year `j` (meaningful for `1 ≤ j`). -/
def schedRow (step : ℕ → LoanState → Row3 × LoanState) (init : LoanState)
    (j : ℕ) : Row3 :=
  (step j (schedStates step init (j - 1))).1

/-- Loop body of the bank-loan block (identical in app.py and
park55-app.py): fixed annuity `annu`, epsilon exit at balance ≤ 0.01. -/
def bankStep (z annu : ℚ) (_jahr : ℕ) (s : LoanState) : Row3 × LoanState :=
  if s.rest ≤ 1 / 100 then (⟨0, 0, 0⟩, s)
  else
    let zins := s.rest * z
    let tilg0 := annu - zins
    let tilg := if s.rest < tilg0 then s.rest else tilg0
    (⟨zins, tilg, s.rest - tilg⟩, ⟨s.rest - tilg, s.annu⟩)

/-- Bank-loan row of year `j`: `darlehen_bank > 0 and (zins+tilgung) > 0`
guards the loop, otherwise the three columns are constant 0; the fixed
installment is `darlehen * (zins_bank + tilgung_bank)`. -/
def bankRow (darlehen z t : ℚ) (j : ℕ) : Row3 :=
  if 0 < darlehen ∧ 0 < z + t then
    schedRow (bankStep z (darlehen * (z + t))) ⟨darlehen, 0⟩ j
  else ⟨0, 0, 0⟩

/-- The two KfW repayment regimes of app.py (`KFW_ANNUITAET`,
`KFW_ENDFAELLIG`). -/
inductive KfwTyp where
  | annuitaet
  | endfaellig
  deriving DecidableEq, Repr

/-- Loop body of the KfW block of app.py `calculate_financing_schedule`
(lines 1099–1160): epsilon exit only after year 1; annuity (re)computed at
year `tf+1` when `tf ≥ 2` or at year 1 when `tf < 2`; bullet repayment at
the maturity year; the accumulated grant `zuschuss` is applied at the end of
year 1 in both regimes, followed (annuity regime, `tf < 2`) by a second
annuity computation on the reduced balance. -/
def kfwStepApp (typ : KfwTyp) (r : ℚ) (laufzeit tf : ℕ) (zuschuss : ℚ)
    (jahr : ℕ) (s : LoanState) : Row3 × LoanState :=
  if s.rest ≤ 1 / 100 ∧ 1 < jahr then (⟨0, 0, 0⟩, s)
  else
    let zins0 := s.rest * r
    let annu1 :=
      match typ with
      | .annuitaet =>
        if jahr = tf + 1 ∧ (2 ≤ tf ∨ jahr = 1) ∧ 0 < laufzeit - tf then
          calculate_annuity s.rest r (laufzeit - tf)
        else s.annu
      | .endfaellig => s.annu
    let tilg0 :=
      match typ with
      | .annuitaet => if tf < jahr then annu1 - zins0 else 0
      | .endfaellig => if jahr = laufzeit then s.rest else 0
    let zins1 :=
      match typ with
      | .annuitaet => zins0
      | .endfaellig => if laufzeit < jahr then 0 else zins0
    let tilg1 := if s.rest < tilg0 then s.rest else tilg0
    let rest1 := s.rest - tilg1
    if jahr = 1 then
      let rest2 := max 0 (rest1 - zuschuss)
      let annu2 :=
        match typ with
        | .annuitaet =>
          if tf < 2 then
            if 0 < laufzeit - 1 then
              if 0 < rest2 then calculate_annuity rest2 r (laufzeit - 1)
              else annu1
            else 0
          else annu1
        | .endfaellig => annu1
      (⟨zins1, tilg1, rest2⟩, ⟨rest2, annu2⟩)
    else (⟨zins1, tilg1, rest1⟩, ⟨rest1, annu1⟩)

/-- KfW row of year `j` in app.py: the loop runs only when
`darlehen_kfw > 0`; `tilgungsfrei_kfw` is forced to 0 in the bullet
regime. -/
def kfwRowApp (typ : KfwTyp) (r : ℚ) (laufzeit tf : ℕ) (darlehen zuschuss : ℚ)
    (j : ℕ) : Row3 :=
  if 0 < darlehen then
    schedRow
      (kfwStepApp typ r laufzeit
        (match typ with | .annuitaet => tf | .endfaellig => 0) zuschuss)
      ⟨darlehen, 0⟩ j
  else ⟨0, 0, 0⟩

/-- Loop body of the KfW block of park55-app.py
`calculate_financing_schedule` (lines 919–965): epsilon exit at balance
≤ 0.01; interest-only grace years `jahr ≤ tf`; at year `tf+1` the whole
grant is applied first and the annuity is then computed on the reduced
balance over `restlaufzeit = laufzeit - tf` periods (`npf.pmt`, here
assumed to succeed, or the equivalent manual fallback). -/
def kfwStepP55 (r : ℚ) (restlaufzeit tf : ℕ) (zuschuss : ℚ)
    (jahr : ℕ) (s : LoanState) : Row3 × LoanState :=
  if s.rest ≤ 1 / 100 then (⟨0, 0, 0⟩, s)
  else if jahr ≤ tf then (⟨s.rest * r, 0, s.rest⟩, s)
  else
    let s1 : LoanState :=
      if jahr = tf + 1 then
        let rest2 := max 0 (s.rest - zuschuss)
        ⟨rest2, if 0 < rest2 then annuityFormula r restlaufzeit rest2 else s.annu⟩
      else s
    let zins := s1.rest * r
    let tilg0 := s1.annu - zins
    let tilg := if s1.rest < tilg0 then s1.rest else tilg0
    (⟨zins, tilg, s1.rest - tilg⟩, ⟨s1.rest - tilg, s1.annu⟩)

/-- KfW row of year `j` in park55-app.py (loop guarded by
`darlehen_kfw > 0`). -/
def kfwRowP55 (r : ℚ) (laufzeit tf : ℕ) (darlehen zuschuss : ℚ)
    (j : ℕ) : Row3 :=
  if 0 < darlehen then
    schedRow (kfwStepP55 r (laufzeit - tf) tf zuschuss) ⟨darlehen, 0⟩ j
  else ⟨0, 0, 0⟩

/-! ## park55-app.py KfW schedule with the exception behaviour of `npf.pmt`

`pmt r n pv = none` models `npf.pmt` raising; park55-app.py then raises
`RuntimeError("Finanzmathematische Berechnung fehlgeschlagen (KfW
Annuität).")`, which nothing in `calculate_financing_schedule` or
`calculate_projection` catches.  With `irrEnabled = false` the manual
fallback runs instead and cannot fail. -/

/-- The `IRR_ENABLED` branch of the year-`tf+1` annuity computation in
park55-app.py (lines 937–951). -/
def p55BoundaryAnnuity (irrEnabled : Bool) (pmt : ℚ → ℕ → ℚ → Option ℚ)
    (r : ℚ) (restlaufzeit : ℕ) (rest : ℚ) : Except String ℚ :=
  if irrEnabled then
    match pmt r restlaufzeit rest with
    | some a => .ok a
    | none => .error "Finanzmathematische Berechnung fehlgeschlagen (KfW Annuitaet)."
  else
    .ok (if r = 0 then (if 0 < restlaufzeit then rest / restlaufzeit else 0)
         else rest * ((1 + r) ^ restlaufzeit * r) / ((1 + r) ^ restlaufzeit - 1))

/-- park55-app.py KfW loop body with exceptions made explicit. -/
def kfwStepP55E (irrEnabled : Bool) (pmt : ℚ → ℕ → ℚ → Option ℚ) (r : ℚ)
    (restlaufzeit tf : ℕ) (zuschuss : ℚ) (jahr : ℕ) (s : LoanState) :
    Except String (Row3 × LoanState) :=
  if s.rest ≤ 1 / 100 then .ok (⟨0, 0, 0⟩, s)
  else if jahr ≤ tf then .ok (⟨s.rest * r, 0, s.rest⟩, s)
  else
    let proceed : LoanState → Row3 × LoanState := fun s1 =>
      let zins := s1.rest * r
      let tilg0 := s1.annu - zins
      let tilg := if s1.rest < tilg0 then s1.rest else tilg0
      (⟨zins, tilg, s1.rest - tilg⟩, ⟨s1.rest - tilg, s1.annu⟩)
    if jahr = tf + 1 then
      let rest2 := max 0 (s.rest - zuschuss)
      if 0 < rest2 then
        match p55BoundaryAnnuity irrEnabled pmt r restlaufzeit rest2 with
        | .error e => .error e
        | .ok a => .ok (proceed ⟨rest2, a⟩)
      else .ok (proceed ⟨rest2, s.annu⟩)
    else .ok (proceed s)

/-- Runs an exception-aware schedule loop over `fuel` years starting at year
`jahr`; the first raised error aborts the whole loop (no handler exists up
the park55-app.py call stack). -/
def schedRowsE (stepE : ℕ → LoanState → Except String (Row3 × LoanState)) :
    ℕ → ℕ → LoanState → Except String (List Row3)
  | _, 0, _ => .ok []
  | jahr, fuel + 1, s =>
    match stepE jahr s with
    | .error e => .error e
    | .ok (row, s1) =>
      match schedRowsE stepE (jahr + 1) fuel s1 with
      | .error e => .error e
      | .ok rows => .ok (row :: rows)

/-- The full park55-app.py KfW schedule (years 1..horizon) with exception
behaviour: an `npf.pmt` failure aborts the whole table computation. -/
def kfwScheduleP55E (irrEnabled : Bool) (pmt : ℚ → ℕ → ℚ → Option ℚ)
    (r : ℚ) (laufzeit tf : ℕ) (darlehen zuschuss : ℚ) (horizon : ℕ) :
    Except String (List Row3) :=
  if 0 < darlehen then
    schedRowsE (kfwStepP55E irrEnabled pmt r (laufzeit - tf) tf zuschuss)
      1 horizon ⟨darlehen, 0⟩
  else .ok (List.replicate horizon ⟨0, 0, 0⟩)

/-! ## Investment calculators -/

/-- `ERWERBSNEBENKOSTEN_SATZ = GREST_SATZ + NOTAR_AG_SATZ = 0.05 + 0.015`. -/
def ERWERBSNEBENKOSTEN_SATZ : ℚ := 5 / 100 + 15 / 1000

/-- `KFW_ZUSCHUSS_261_SATZ = 0.40`. -/
def KFW_ZUSCHUSS_261_SATZ : ℚ := 40 / 100

/-- `KFW_ZUSCHUSS_BB_SATZ = 0.50`. -/
def KFW_ZUSCHUSS_BB_SATZ : ℚ := 50 / 100

/-- Input parameters read by park55-app.py `calculate_investment`
(percentage fields already normalized to fractions). -/
structure P55Params where
  input_gik_netto : ℚ
  kosten_baubegleitung_pro_we : ℚ
  input_anzahl_whg : ℕ
  input_grundstuecksanteil : ℚ
  input_sanierungskostenanteil : ℚ
  input_altbauanteil : ℚ
  ek_quote : ℚ
  input_kfw_darlehen_261_basis : ℚ

/-- Result record of park55-app.py `calculate_investment`. -/
structure P55Invest where
  gik_netto : ℚ
  erwerbsnebenkosten : ℚ
  gik_brutto : ℚ
  kosten_baubegleitung_gesamt : ℚ
  zuschuss_baubegleitung : ℚ
  aktivierung_baubegleitung : ℚ
  investitionssumme_gesamt : ℚ
  afa_basis_grundstueck : ℚ
  afa_basis_sanierung : ℚ
  afa_basis_altbau : ℚ
  eigenkapital_bedarf : ℚ
  fremdkapital_bedarf : ℚ
  kfw_darlehen : ℚ
  kfw_darlehen_basis : ℚ
  kfw_tilgungszuschuss : ℚ
  bankdarlehen : ℚ
  gesamtzuschuss : ℚ
  effektives_eigenkapital : ℚ
  finanzierung_hinweis : Bool

/-- park55-app.py `calculate_investment` (lines 677–772). -/
def calculate_investment_p55 (p : P55Params) : P55Invest :=
  let gik_netto := p.input_gik_netto
  let erwerbsnebenkosten := gik_netto * ERWERBSNEBENKOSTEN_SATZ
  let gik_brutto := gik_netto + erwerbsnebenkosten
  let kosten_bb := p.kosten_baubegleitung_pro_we * p.input_anzahl_whg
  let zuschuss_bb := kosten_bb * KFW_ZUSCHUSS_BB_SATZ
  let aktivierung_bb := kosten_bb - zuschuss_bb
  let invest := gik_brutto + kosten_bb
  let wert_grundstueck := gik_netto * p.input_grundstuecksanteil
  let wert_sanierung := gik_netto * p.input_sanierungskostenanteil
  let wert_altbau := gik_netto * p.input_altbauanteil
  let nk_faktor := 1 + ERWERBSNEBENKOSTEN_SATZ
  let afa_grundstueck := wert_grundstueck * nk_faktor
  let afa_sanierung := wert_sanierung * nk_faktor + aktivierung_bb
  let afa_altbau := wert_altbau * nk_faktor
  let eigenkapital := if invest = 0 then 0 else invest * p.ek_quote
  let fremdkapital := if invest = 0 then 0 else invest - eigenkapital
  let basis0 := p.input_kfw_darlehen_261_basis
  let gesamt0 := basis0 + kosten_bb
  let capped := fremdkapital < gesamt0 ∧ 0 < fremdkapital
  let gesamt1 := if capped then fremdkapital else gesamt0
  let basis1 :=
    if capped then
      let reduktion := gesamt0 - fremdkapital
      if reduktion ≤ basis0 then basis0 - reduktion else 0
    else basis0
  let tilgungszuschuss := basis1 * KFW_ZUSCHUSS_261_SATZ
  let bankdarlehen := fremdkapital - gesamt1
  let gesamtzuschuss := tilgungszuschuss + zuschuss_bb
  { gik_netto := gik_netto
    erwerbsnebenkosten := erwerbsnebenkosten
    gik_brutto := gik_brutto
    kosten_baubegleitung_gesamt := kosten_bb
    zuschuss_baubegleitung := zuschuss_bb
    aktivierung_baubegleitung := aktivierung_bb
    investitionssumme_gesamt := invest
    afa_basis_grundstueck := afa_grundstueck
    afa_basis_sanierung := afa_sanierung
    afa_basis_altbau := afa_altbau
    eigenkapital_bedarf := eigenkapital
    fremdkapital_bedarf := fremdkapital
    kfw_darlehen := gesamt1
    kfw_darlehen_basis := basis1
    kfw_tilgungszuschuss := tilgungszuschuss
    bankdarlehen := bankdarlehen
    gesamtzuschuss := gesamtzuschuss
    effektives_eigenkapital := max 0 (eigenkapital - gesamtzuschuss)
    finanzierung_hinweis := decide capped }

/-- Input parameters read by app.py `calculate_investment`;
`input_gik_netto` is carried in the record solely because the surrounding
application supplies it — the function itself never reads it. -/
structure AppParams where
  input_gik_netto : ℚ
  input_kommunale_foerderung : ℚ
  input_wohnflaeche : ℚ
  input_sanierungskosten_vor_zuschuss : ℚ
  input_anzahl_whg : ℕ
  kosten_baubegleitung_pro_we : ℚ
  input_grundstuecksanteil_pct : ℚ
  input_kfw_foerderfaehige_kosten : ℚ
  input_kfw_darlehen_261_basis : ℚ
  ek_quote : ℚ

/-- Result record of app.py `calculate_investment`. -/
structure AppInvest where
  kommunale_foerderung : ℚ
  wohnflaeche_bestand : ℚ
  kaufpreis_bestand : ℚ
  erwerbsnebenkosten : ℚ
  kosten_baubegleitung_gesamt : ℚ
  aktivierung_baubegleitung : ℚ
  zuschuss_baubegleitung : ℚ
  gik_netto : ℚ
  gik_brutto : ℚ
  investitionssumme_gesamt : ℚ
  wert_sanierung : ℚ
  wert_grundstueck : ℚ
  wert_altbau : ℚ
  afa_basis_grundstueck : ℚ
  afa_basis_altbau : ℚ
  afa_basis_sanierung_vor_foerderung : ℚ
  kfw_tilgungszuschuss : ℚ
  afa_basis_sanierung : ℚ
  afa_hinweis : Bool
  eigenkapital : ℚ
  fremdkapital_gesamt : ℚ
  kfw_darlehen_basis : ℚ
  kfw_darlehen : ℚ
  bankdarlehen : ℚ
  gesamtzuschuss : ℚ
  effektives_eigenkapital : ℚ

/-- app.py `calculate_investment` (lines 871–941). -/
def calculate_investment_app (p : AppParams) : AppInvest :=
  let komm := p.input_kommunale_foerderung
  let saniert := p.input_wohnflaeche
  let bestand := if 0 < saniert then saniert / (14 / 10) else 0
  let kaufpreis := bestand * 650
  let erwerbsnebenkosten := kaufpreis * (65 / 1000)
  let sanierung := p.input_sanierungskosten_vor_zuschuss
  let kosten_bb := (p.input_anzahl_whg : ℚ) * p.kosten_baubegleitung_pro_we
  let aktivierung_bb := kosten_bb * KFW_ZUSCHUSS_BB_SATZ
  let zuschuss_bb := kosten_bb * KFW_ZUSCHUSS_BB_SATZ
  let gik_netto := kaufpreis + sanierung + kosten_bb
  let gik_brutto := gik_netto + erwerbsnebenkosten
  let wert_sanierung := sanierung
  let wert_grundstueck := kaufpreis * (p.input_grundstuecksanteil_pct / 100)
  let wert_altbau := kaufpreis - wert_grundstueck
  let anteil_altbau := if 0 < kaufpreis then wert_altbau / kaufpreis else 0
  let knk_auf_altbau := erwerbsnebenkosten * anteil_altbau
  let afa_altbau := wert_altbau + knk_auf_altbau
  let basis_vor := wert_sanierung + aktivierung_bb
  let foerderfaehig0 := p.input_kfw_foerderfaehige_kosten
  let foerderfaehig :=
    if foerderfaehig0 = 0 then p.input_kfw_darlehen_261_basis else foerderfaehig0
  let tilgungszuschuss := foerderfaehig * KFW_ZUSCHUSS_261_SATZ
  let komm_zuschuss := komm
  let komm_eigenanteil := komm * (15 / 10)
  let afa_sanierung :=
    max 0 (basis_vor - komm_zuschuss - tilgungszuschuss + komm_eigenanteil)
  let hinweis := basis_vor < komm + tilgungszuschuss ∧ 0 < basis_vor
  let eigenkapital := gik_brutto * p.ek_quote
  let fremdkapital := gik_brutto - eigenkapital
  let kfw_261 := p.input_kfw_darlehen_261_basis
  let kfw_darlehen := kfw_261 + kosten_bb
  { kommunale_foerderung := komm
    wohnflaeche_bestand := bestand
    kaufpreis_bestand := kaufpreis
    erwerbsnebenkosten := erwerbsnebenkosten
    kosten_baubegleitung_gesamt := kosten_bb
    aktivierung_baubegleitung := aktivierung_bb
    zuschuss_baubegleitung := zuschuss_bb
    gik_netto := gik_netto
    gik_brutto := gik_brutto
    investitionssumme_gesamt := gik_brutto
    wert_sanierung := wert_sanierung
    wert_grundstueck := wert_grundstueck
    wert_altbau := wert_altbau
    afa_basis_grundstueck := wert_grundstueck
    afa_basis_altbau := afa_altbau
    afa_basis_sanierung_vor_foerderung := basis_vor
    kfw_tilgungszuschuss := tilgungszuschuss
    afa_basis_sanierung := afa_sanierung
    afa_hinweis := decide hinweis
    eigenkapital := eigenkapital
    fremdkapital_gesamt := fremdkapital
    kfw_darlehen_basis := kfw_261
    kfw_darlehen := kfw_darlehen
    bankdarlehen := max 0 (fremdkapital - kfw_darlehen)
    gesamtzuschuss := tilgungszuschuss + zuschuss_bb + komm
    effektives_eigenkapital :=
      max 0 (eigenkapital - (tilgungszuschuss + zuschuss_bb + komm)) }

/-! ## Depreciation scheduler (identical in both files) -/

/-- Special/monument band (`AFA_DENKMAL_J1_8 = 0.09`, `AFA_DENKMAL_J9_12 =
0.07`): fixed percentage of the renovation basis, not declining. -/
def afaDenkmal (basis : ℚ) (jahr : ℕ) : ℚ :=
  if 1 ≤ jahr ∧ jahr ≤ 8 then basis * (9 / 100)
  else if 9 ≤ jahr ∧ jahr ≤ 12 then basis * (7 / 100)
  else 0

/-- Running remainder of the straight-line band after `j` years
(`restwert_altbau`, `AFA_ALTBAU_SATZ = 0.02`). -/
def afaLinearRest (basis : ℚ) : ℕ → ℚ
  | 0 => basis
  | j + 1 =>
    let betrag := basis * (2 / 100)
    let rest := afaLinearRest basis j
    rest - (if rest < betrag then rest else betrag)

/-- Straight-line amount booked in year `j` (meaningful for `1 ≤ j`). -/
def afaLinear (basis : ℚ) (jahr : ℕ) : ℚ :=
  let betrag := basis * (2 / 100)
  let rest := afaLinearRest basis (jahr - 1)
  if rest < betrag then rest else betrag

/-- Cumulative value of a year-indexed series over years `1..k`. -/
def sumTo (f : ℕ → ℚ) : ℕ → ℚ
  | 0 => 0
  | k + 1 => sumTo f k + f (k + 1)

/-! ## IRR failure policy (identical in both files) -/

/-- Outcome of the `npf.irr` call: it can raise, return NaN or a non-real
value, or return a real number. -/
inductive IrrSolve where
  | raised
  | nonreal
  | val (v : ℚ)
  deriving DecidableEq, Repr

/-- Value stored in `results['kpi_irr_nach_steuer']`: the string "N/A", the
string "Fehler", or a number. -/
inductive IrrKpi where
  | na
  | fehler
  | num (v : ℚ)
  deriving DecidableEq, Repr

/-- `irr_stream[-1] += exit_erloes` on a Python list. -/
def addToLast (x : ℚ) : List ℚ → List ℚ
  | [] => []
  | [a] => [a + x]
  | a :: b :: rest => a :: addToLast x (b :: rest)

/-- The cash-flow vector handed to `npf.irr`:
`[-initial_investment] + cashflows`, with the exit proceeds added to the
last element when the list has more than one entry. -/
def irrStream (initial : ℚ) (cashflows : List ℚ) (exitErloes : ℚ) : List ℚ :=
  let stream := -initial :: cashflows
  if 1 < stream.length then addToLast exitErloes stream else stream

/-- `calculate_irr` failure policy (app.py lines 1304–1330, identically
park55-app.py lines 1015–1066): solver unavailable → "N/A"; `npf.irr`
raising → "Fehler"; NaN/non-real result → 0.0; real result → that value. -/
def calculate_irr (irrEnabled : Bool) (solve : List ℚ → IrrSolve)
    (initial : ℚ) (cashflows : List ℚ) (exitErloes : ℚ) : IrrKpi :=
  if irrEnabled = false then .na
  else
    match solve (irrStream initial cashflows exitErloes) with
    | .raised => .fehler
    | .nonreal => .num 0
    | .val v => .num v

/-- Idealized outstanding balance after `k` exact annuity payments of
`annuityFormula r n pv` on an initial balance `pv` at rate `r`: the closed
form of the recurrence `B (k+1) = B k * (1+r) - annuityFormula r n pv`,
used to analyse the amortization loops. -/
def annuityBal (r pv : ℚ) (n k : ℕ) : ℚ :=
  if r = 0 then pv - k * (pv / n)
  else pv / ((1 + r) ^ n - 1) * ((1 + r) ^ n - (1 + r) ^ k)

/-! # Theorems -/

section AnnuityLemmas

variable {r pv : ℚ} {n : ℕ}

theorem one_lt_q_pow (hr : 0 < r) (hn : n ≠ 0) : 1 < (1 + r) ^ n :=
  one_lt_pow₀ (by linarith) hn

theorem annuityFormula_pos (hr : 0 ≤ r) (hn : n ≠ 0) (hpv : 0 < pv) :
    0 < annuityFormula r n pv := by
  unfold annuityFormula
  split_ifs with h
  · have : 0 < (n : ℚ) := by exact_mod_cast Nat.pos_of_ne_zero hn
    positivity
  · have hr' : 0 < r := lt_of_le_of_ne hr (Ne.symm h)
    have hq := one_lt_q_pow hr' hn
    exact div_pos (by positivity) (by linarith)

theorem mul_rate_le_annuityFormula (hr : 0 ≤ r) (hn : n ≠ 0) (hpv : 0 ≤ pv) :
    pv * r ≤ annuityFormula r n pv := by
  unfold annuityFormula
  split_ifs with h
  · subst h
    have : 0 < (n : ℚ) := by exact_mod_cast Nat.pos_of_ne_zero hn
    simp only [mul_zero]
    positivity
  · have hr' : 0 < r := lt_of_le_of_ne hr (Ne.symm h)
    have hq := one_lt_q_pow hr' hn
    rw [mul_div_assoc]
    apply mul_le_mul_of_nonneg_left _ hpv
    rw [le_div_iff₀ (by linarith)]
    nlinarith

theorem annuityFormula_le (hr : 0 ≤ r) (hn : n ≠ 0) (hpv : 0 ≤ pv) :
    annuityFormula r n pv ≤ pv * (1 + r) := by
  unfold annuityFormula
  split_ifs with h
  · subst h
    rw [add_zero, mul_one]
    exact div_le_self hpv (by exact_mod_cast Nat.one_le_iff_ne_zero.mpr hn)
  · have hr' : 0 < r := lt_of_le_of_ne hr (Ne.symm h)
    have hq := one_lt_q_pow hr' hn
    have hbase : 1 + r ≤ (1 + r) ^ n := le_self_pow₀ (by linarith) hn
    rw [div_le_iff₀ (by linarith), mul_assoc]
    apply mul_le_mul_of_nonneg_left _ hpv
    nlinarith

theorem annuityBal_zero (hr : 0 ≤ r) (hn : n ≠ 0) :
    annuityBal r pv n 0 = pv := by
  unfold annuityBal
  split_ifs with h
  · simp
  · have hr' : 0 < r := lt_of_le_of_ne hr (Ne.symm h)
    have hq := one_lt_q_pow hr' hn
    rw [pow_zero]
    exact div_mul_cancel₀ pv (by linarith)

theorem annuityBal_rec (hr : 0 ≤ r) (hn : n ≠ 0) (k : ℕ) :
    annuityBal r pv n (k + 1) =
      annuityBal r pv n k * (1 + r) - annuityFormula r n pv := by
  unfold annuityBal annuityFormula
  split_ifs with h
  · subst h
    push_cast
    ring
  · have hr' : 0 < r := lt_of_le_of_ne hr (Ne.symm h)
    have hq := one_lt_q_pow hr' hn
    have hne : (1 + r) ^ n - 1 ≠ 0 := by linarith
    field_simp
    ring

theorem annuityBal_nonneg (hr : 0 ≤ r) (hn : n ≠ 0) (hpv : 0 ≤ pv)
    {k : ℕ} (hk : k ≤ n) : 0 ≤ annuityBal r pv n k := by
  unfold annuityBal
  split_ifs with h
  · have hnq : 0 < (n : ℚ) := by exact_mod_cast Nat.pos_of_ne_zero hn
    have hkq : (k : ℚ) ≤ n := by exact_mod_cast hk
    have h1 : (k : ℚ) * (pv / n) ≤ (n : ℚ) * (pv / n) :=
      mul_le_mul_of_nonneg_right hkq (by positivity)
    have h2 : (n : ℚ) * (pv / n) = pv := by
      field_simp
    linarith
  · have hr' : 0 < r := lt_of_le_of_ne hr (Ne.symm h)
    have hq := one_lt_q_pow hr' hn
    have hpow : (1 + r) ^ k ≤ (1 + r) ^ n := pow_le_pow_right₀ (by linarith) hk
    have h1 : 0 ≤ pv / ((1 + r) ^ n - 1) := div_nonneg hpv (by linarith)
    have h2 : 0 ≤ (1 + r) ^ n - (1 + r) ^ k := by linarith
    exact mul_nonneg h1 h2

theorem annuityBal_anti (hr : 0 ≤ r) (hn : n ≠ 0) (hpv : 0 ≤ pv) (k : ℕ) :
    annuityBal r pv n (k + 1) ≤ annuityBal r pv n k := by
  unfold annuityBal
  split_ifs with h
  · have hnq : 0 < (n : ℚ) := by exact_mod_cast Nat.pos_of_ne_zero hn
    have : 0 ≤ pv / n := by positivity
    push_cast
    nlinarith
  · have hr' : 0 < r := lt_of_le_of_ne hr (Ne.symm h)
    have hq := one_lt_q_pow hr' hn
    have h1 : 0 ≤ pv / ((1 + r) ^ n - 1) := div_nonneg hpv (by linarith)
    have hpow : (1 + r) ^ k ≤ (1 + r) ^ (k + 1) :=
      pow_le_pow_right₀ (by linarith) (Nat.le_succ k)
    apply mul_le_mul_of_nonneg_left _ h1
    linarith

theorem annuityBal_final (hn : n ≠ 0) :
    annuityBal r pv n n = 0 := by
  unfold annuityBal
  split_ifs with h
  · have hnq : ((n : ℚ)) ≠ 0 := by exact_mod_cast hn
    field_simp
  · simp

end AnnuityLemmas


section DepreciationLemmas

theorem afaDenkmal_scale (b : ℚ) (j : ℕ) :
    afaDenkmal b j = b * afaDenkmal 1 j := by
  unfold afaDenkmal
  split_ifs <;> ring

theorem sumTo_afaDenkmal_scale (b : ℚ) (k : ℕ) :
    sumTo (afaDenkmal b) k = b * sumTo (afaDenkmal 1) k := by
  induction k with
  | zero => simp [sumTo]
  | succ k ih => rw [sumTo, sumTo, ih, afaDenkmal_scale]; ring

theorem sumTo_afaDenkmal_unit_low {k : ℕ} (hk : k ≤ 8) :
    sumTo (afaDenkmal 1) k = k * (9 / 100) := by
  induction k with
  | zero => simp [sumTo]
  | succ k ih =>
    rw [sumTo, ih (by omega)]
    have h1 : afaDenkmal 1 (k + 1) = 9 / 100 := by
      unfold afaDenkmal
      rw [if_pos ⟨by omega, hk⟩, one_mul]
    rw [h1]
    push_cast
    ring

theorem sumTo_afaDenkmal_unit_mid :
    ∀ k, 8 ≤ k → k ≤ 12 → sumTo (afaDenkmal 1) k = 72 / 100 + (k - 8 : ℕ) * (7 / 100) := by
  intro k hk
  induction k, hk using Nat.le_induction with
  | base =>
    intro _
    rw [sumTo_afaDenkmal_unit_low (by omega)]
    norm_num
  | succ n hn ih =>
    intro h12
    have h1 : afaDenkmal 1 (n + 1) = 7 / 100 := by
      have hc1 : ¬(1 ≤ n + 1 ∧ n + 1 ≤ 8) := by omega
      have hc2 : 9 ≤ n + 1 ∧ n + 1 ≤ 12 := by omega
      unfold afaDenkmal
      rw [if_neg hc1, if_pos hc2, one_mul]
    rw [sumTo, ih (by omega), h1]
    have h2 : (n + 1 - 8 : ℕ) = (n - 8 : ℕ) + 1 := by omega
    rw [h2]
    push_cast
    ring

theorem sumTo_afaDenkmal_unit_high :
    ∀ k, 12 ≤ k → sumTo (afaDenkmal 1) k = 1 := by
  intro k hk
  induction k, hk using Nat.le_induction with
  | base =>
    rw [sumTo_afaDenkmal_unit_mid 12 (by omega) (by omega)]
    norm_num
  | succ n hn ih =>
    have h1 : afaDenkmal 1 (n + 1) = 0 := by
      have hc1 : ¬(1 ≤ n + 1 ∧ n + 1 ≤ 8) := by omega
      have hc2 : ¬(9 ≤ n + 1 ∧ n + 1 ≤ 12) := by omega
      unfold afaDenkmal
      rw [if_neg hc1, if_neg hc2]
    rw [sumTo, h1, add_zero, ih]

theorem sumTo_afaDenkmal_unit_le (k : ℕ) : sumTo (afaDenkmal 1) k ≤ 1 := by
  rcases le_or_lt k 8 with h | h
  · rw [sumTo_afaDenkmal_unit_low h]
    have : (k : ℚ) ≤ 8 := by exact_mod_cast h
    linarith
  rcases le_or_lt k 12 with h12 | h12
  · rw [sumTo_afaDenkmal_unit_mid k (by omega) h12]
    have : ((k - 8 : ℕ) : ℚ) ≤ 4 := by
      have h4 : (k - 8 : ℕ) ≤ 4 := by omega
      exact_mod_cast h4
    linarith
  · rw [sumTo_afaDenkmal_unit_high k (by omega)]

theorem afaLinearRest_nonneg (b : ℚ) (hb : 0 ≤ b) (k : ℕ) :
    0 ≤ afaLinearRest b k := by
  induction k with
  | zero => exact hb
  | succ k ih =>
    rw [afaLinearRest]
    split_ifs with h
    · simp
    · linarith [not_lt.mp h]

theorem sumTo_afaLinear (b : ℚ) (k : ℕ) :
    sumTo (afaLinear b) k = b - afaLinearRest b k := by
  induction k with
  | zero => simp [sumTo, afaLinearRest]
  | succ k ih =>
    rw [sumTo, ih, afaLinearRest]
    unfold afaLinear
    simp only [Nat.add_sub_cancel]
    split_ifs <;> ring

end DepreciationLemmas

/-- C9: in `calculate_depreciation_schedule` (identical in both files), for
every nonnegative renovation basis and old-building basis and every prefix
of years, the cumulative special-band (Denkmal) depreciation never exceeds
the renovation basis, the cumulative straight-line depreciation never
exceeds the old-building basis, and each straight-line year amount equals
2% of the original basis capped at the remaining undepreciated basis. -/
theorem C9_depreciation_caps (basisS basisA : ℚ)
    (hS : 0 ≤ basisS) (hA : 0 ≤ basisA) :
    (∀ k, sumTo (afaDenkmal basisS) k ≤ basisS) ∧
    (∀ k, sumTo (afaLinear basisA) k ≤ basisA) ∧
    (∀ j, 1 ≤ j →
      afaLinear basisA j = min (basisA * (2 / 100)) (afaLinearRest basisA (j - 1))) := by
  refine ⟨fun k => ?_, fun k => ?_, fun j _ => ?_⟩
  · rw [sumTo_afaDenkmal_scale]
    calc basisS * sumTo (afaDenkmal 1) k ≤ basisS * 1 :=
        mul_le_mul_of_nonneg_left (sumTo_afaDenkmal_unit_le k) hS
    _ = basisS := mul_one basisS
  · rw [sumTo_afaLinear]
    linarith [afaLinearRest_nonneg basisA hA k]
  · simp only [afaLinear]
    split_ifs with h
    · exact (min_eq_right h.le).symm
    · exact (min_eq_left (not_lt.mp h)).symm

/-- Witness for C9 at concrete bases 100 and 50. -/
theorem C9_depreciation_caps_witness :
    (∀ k, sumTo (afaDenkmal 100) k ≤ 100) ∧
    (∀ k, sumTo (afaLinear 50) k ≤ 50) ∧
    (∀ j, 1 ≤ j →
      afaLinear 50 j = min (50 * (2 / 100)) (afaLinearRest 50 (j - 1))) :=
  C9_depreciation_caps 100 50 (by norm_num) (by norm_num)

/-- C7 (counterexample): the claim says a raising IRR solve yields the
numeric value 0.0; in the code (`calculate_irr`, identical in both files) a
raising `npf.irr` records the error sentinel "Fehler" instead, which is not
the number 0. -/
theorem C7_counterexample :
    calculate_irr true (fun _ => .raised) 1000 [100, 100] 50 = .fehler ∧
    IrrKpi.fehler ≠ IrrKpi.num 0 := by
  constructor
  · rfl
  · intro h
    cases h

/-- C7 (amended): the IRR KPI policy of `calculate_irr`: solving capability
unavailable → "N/A" sentinel; solver raising → the error sentinel "Fehler"
(not 0.0); NaN or non-real result → the numeric value 0.0; real result →
that value. -/
theorem C7_irr_policy (solve : List ℚ → IrrSolve)
    (initial exitErloes : ℚ) (cashflows : List ℚ) :
    calculate_irr false solve initial cashflows exitErloes = .na ∧
    (solve (irrStream initial cashflows exitErloes) = .raised →
      calculate_irr true solve initial cashflows exitErloes = .fehler) ∧
    (solve (irrStream initial cashflows exitErloes) = .nonreal →
      calculate_irr true solve initial cashflows exitErloes = .num 0) ∧
    (∀ v, solve (irrStream initial cashflows exitErloes) = .val v →
      calculate_irr true solve initial cashflows exitErloes = .num v) := by
  refine ⟨rfl, fun h => ?_, fun h => ?_, fun v h => ?_⟩ <;>
    simp [calculate_irr, h]

/-- Witness for C7 at a concrete non-real solver outcome. -/
theorem C7_irr_policy_witness :
    calculate_irr false (fun _ => .nonreal) 1000 [100] 0 = .na ∧
    ((fun (_ : List ℚ) => IrrSolve.nonreal) (irrStream 1000 [100] 0) = .raised →
      calculate_irr true (fun _ => .nonreal) 1000 [100] 0 = .fehler) ∧
    ((fun (_ : List ℚ) => IrrSolve.nonreal) (irrStream 1000 [100] 0) = .nonreal →
      calculate_irr true (fun _ => .nonreal) 1000 [100] 0 = .num 0) ∧
    (∀ v, (fun (_ : List ℚ) => IrrSolve.nonreal) (irrStream 1000 [100] 0) = .val v →
      calculate_irr true (fun _ => .nonreal) 1000 [100] 0 = .num v) :=
  C7_irr_policy (fun _ => .nonreal) 1000 0 [100]

/-- C3 (counterexample): in the app.py variant the accounting identity
`equity + bank loan + subsidized-loan total = total investment` fails when
the KfW loan exceeds the debt requirement, because `bankdarlehen` is floored
at 0 while `kfw_darlehen` is not capped: with 1 unit, supervision cost 3998
per unit, KfW base 10000 and everything else 0, the left side is 13998 and
the total investment is 3998. -/
theorem C3_counterexample :
    (calculate_investment_app ⟨0, 0, 0, 0, 1, 3998, 8, 0, 10000, 0⟩).eigenkapital
      + (calculate_investment_app ⟨0, 0, 0, 0, 1, 3998, 8, 0, 10000, 0⟩).bankdarlehen
      + (calculate_investment_app ⟨0, 0, 0, 0, 1, 3998, 8, 0, 10000, 0⟩).kfw_darlehen
      = 13998 ∧
    (calculate_investment_app ⟨0, 0, 0, 0, 1, 3998, 8, 0, 10000, 0⟩).investitionssumme_gesamt
      = 3998 ∧
    (13998 : ℚ) ≠ 3998 := by
  refine ⟨?_, ?_, by norm_num⟩ <;>
    norm_num [calculate_investment_app, KFW_ZUSCHUSS_BB_SATZ, KFW_ZUSCHUSS_261_SATZ]

/-- C3 (amended): the accounting identity `equity + bank loan +
subsidized-loan total = total investment` holds unconditionally in the
park55-app.py variant of `calculate_investment`, and in the app.py variant
it holds whenever the KfW loan does not exceed the debt requirement. -/
theorem C3_accounting_identity (p : P55Params) (q : AppParams) :
    ((calculate_investment_p55 p).eigenkapital_bedarf
      + (calculate_investment_p55 p).bankdarlehen
      + (calculate_investment_p55 p).kfw_darlehen
      = (calculate_investment_p55 p).investitionssumme_gesamt) ∧
    ((calculate_investment_app q).kfw_darlehen
        ≤ (calculate_investment_app q).fremdkapital_gesamt →
      (calculate_investment_app q).eigenkapital
        + (calculate_investment_app q).bankdarlehen
        + (calculate_investment_app q).kfw_darlehen
        = (calculate_investment_app q).investitionssumme_gesamt) := by
  constructor
  · simp only [calculate_investment_p55]
    by_cases h1 : p.input_gik_netto + p.input_gik_netto * ERWERBSNEBENKOSTEN_SATZ
        + p.kosten_baubegleitung_pro_we * (p.input_anzahl_whg : ℚ) = 0
    · rw [if_pos h1, if_pos h1]
      ring_nf
      linarith
    · rw [if_neg h1, if_neg h1]
      ring
  · intro h
    simp only [calculate_investment_app] at h ⊢
    rw [max_eq_right (sub_nonneg.mpr h)]
    ring

/-- Witness for C3 at concrete parameter records. -/
theorem C3_accounting_identity_witness :
    ((calculate_investment_p55 ⟨500000, 3998, 6, 8/100, 80/100, 12/100, 20/100, 100000⟩).eigenkapital_bedarf
      + (calculate_investment_p55 ⟨500000, 3998, 6, 8/100, 80/100, 12/100, 20/100, 100000⟩).bankdarlehen
      + (calculate_investment_p55 ⟨500000, 3998, 6, 8/100, 80/100, 12/100, 20/100, 100000⟩).kfw_darlehen
      = (calculate_investment_p55 ⟨500000, 3998, 6, 8/100, 80/100, 12/100, 20/100, 100000⟩).investitionssumme_gesamt) ∧
    ((calculate_investment_app ⟨0, 0, 140, 400000, 6, 3998, 8, 0, 100000, 20/100⟩).kfw_darlehen
        ≤ (calculate_investment_app ⟨0, 0, 140, 400000, 6, 3998, 8, 0, 100000, 20/100⟩).fremdkapital_gesamt →
      (calculate_investment_app ⟨0, 0, 140, 400000, 6, 3998, 8, 0, 100000, 20/100⟩).eigenkapital
        + (calculate_investment_app ⟨0, 0, 140, 400000, 6, 3998, 8, 0, 100000, 20/100⟩).bankdarlehen
        + (calculate_investment_app ⟨0, 0, 140, 400000, 6, 3998, 8, 0, 100000, 20/100⟩).kfw_darlehen
        = (calculate_investment_app ⟨0, 0, 140, 400000, 6, 3998, 8, 0, 100000, 20/100⟩).investitionssumme_gesamt) :=
  C3_accounting_identity ⟨500000, 3998, 6, 8/100, 80/100, 12/100, 20/100, 100000⟩
    ⟨0, 0, 140, 400000, 6, 3998, 8, 0, 100000, 20/100⟩

/-- C5 (counterexample): the app.py variant of `calculate_investment`
performs no capping of the subsidized loan at the debt requirement: with 2
units (supervision cost 7996), KfW base 20000 and no other investment, the
debt requirement is 7996 but the stored KfW loan remains 27996 and the
repayment grant is computed as 40% of the uncapped base (8000), with no
advisory recorded anywhere in the result. -/
theorem C5_counterexample :
    (calculate_investment_app ⟨0, 0, 0, 0, 2, 3998, 8, 0, 20000, 0⟩).fremdkapital_gesamt
      = 7996 ∧
    (calculate_investment_app ⟨0, 0, 0, 0, 2, 3998, 8, 0, 20000, 0⟩).kfw_darlehen
      = 27996 ∧
    (calculate_investment_app ⟨0, 0, 0, 0, 2, 3998, 8, 0, 20000, 0⟩).kfw_tilgungszuschuss
      = 8000 ∧
    ¬((calculate_investment_app ⟨0, 0, 0, 0, 2, 3998, 8, 0, 20000, 0⟩).kfw_darlehen
      ≤ (calculate_investment_app ⟨0, 0, 0, 0, 2, 3998, 8, 0, 20000, 0⟩).fremdkapital_gesamt) := by
  refine ⟨?_, ?_, ?_, ?_⟩ <;>
    norm_num [calculate_investment_app, KFW_ZUSCHUSS_BB_SATZ, KFW_ZUSCHUSS_261_SATZ]

/-- C5 (amended): in the park55-app.py variant of `calculate_investment`,
when the subsidized-loan total (base + supervision cost) exceeds a positive
debt requirement, the total is capped to the debt requirement, the excess is
removed from the base component first (the base is floored at 0 when it does
not suffice), the non-fatal advisory flag is recorded, the repayment grant
is 40% of the post-cap base, and the bank loan becomes 0.  The app.py
variant performs no such capping (see the counterexample). -/
theorem C5_p55_loan_cap (p : P55Params)
    (h0 : 0 < (calculate_investment_p55 p).fremdkapital_bedarf)
    (hx : (calculate_investment_p55 p).fremdkapital_bedarf
      < p.input_kfw_darlehen_261_basis
        + (calculate_investment_p55 p).kosten_baubegleitung_gesamt) :
    (calculate_investment_p55 p).kfw_darlehen
      = (calculate_investment_p55 p).fremdkapital_bedarf ∧
    (calculate_investment_p55 p).finanzierung_hinweis = true ∧
    (calculate_investment_p55 p).kfw_darlehen_basis
      = (if p.input_kfw_darlehen_261_basis
            + (calculate_investment_p55 p).kosten_baubegleitung_gesamt
            - (calculate_investment_p55 p).fremdkapital_bedarf
            ≤ p.input_kfw_darlehen_261_basis
         then p.input_kfw_darlehen_261_basis
            - (p.input_kfw_darlehen_261_basis
              + (calculate_investment_p55 p).kosten_baubegleitung_gesamt
              - (calculate_investment_p55 p).fremdkapital_bedarf)
         else 0) ∧
    (calculate_investment_p55 p).kfw_tilgungszuschuss
      = (calculate_investment_p55 p).kfw_darlehen_basis * (40 / 100) ∧
    (calculate_investment_p55 p).bankdarlehen = 0 := by
  simp only [calculate_investment_p55, KFW_ZUSCHUSS_261_SATZ] at h0 hx ⊢
  split_ifs at h0 hx ⊢
  all_goals try exact absurd h0 (lt_irrefl 0)
  all_goals try exact absurd (And.intro hx h0) (by assumption)
  all_goals refine ⟨?_, ?_, ?_, ?_, ?_⟩ <;>
    first
      | trivial
      | exact decide_eq_true (And.intro hx h0)
      | ring

/-- Witness for C5: a concrete park55-app.py record where the KfW loan
exceeds the debt requirement and is capped. -/
theorem C5_p55_loan_cap_witness :
    ((calculate_investment_p55 ⟨100000, 3998, 2, 8/100, 80/100, 12/100, 90/100, 50000⟩).kfw_darlehen
      = (calculate_investment_p55 ⟨100000, 3998, 2, 8/100, 80/100, 12/100, 90/100, 50000⟩).fremdkapital_bedarf ∧
    (calculate_investment_p55 ⟨100000, 3998, 2, 8/100, 80/100, 12/100, 90/100, 50000⟩).finanzierung_hinweis = true ∧
    (calculate_investment_p55 ⟨100000, 3998, 2, 8/100, 80/100, 12/100, 90/100, 50000⟩).kfw_darlehen_basis
      = (if (50000 : ℚ)
            + (calculate_investment_p55 ⟨100000, 3998, 2, 8/100, 80/100, 12/100, 90/100, 50000⟩).kosten_baubegleitung_gesamt
            - (calculate_investment_p55 ⟨100000, 3998, 2, 8/100, 80/100, 12/100, 90/100, 50000⟩).fremdkapital_bedarf
            ≤ (50000 : ℚ)
         then (50000 : ℚ)
            - ((50000 : ℚ)
              + (calculate_investment_p55 ⟨100000, 3998, 2, 8/100, 80/100, 12/100, 90/100, 50000⟩).kosten_baubegleitung_gesamt
              - (calculate_investment_p55 ⟨100000, 3998, 2, 8/100, 80/100, 12/100, 90/100, 50000⟩).fremdkapital_bedarf)
         else 0) ∧
    (calculate_investment_p55 ⟨100000, 3998, 2, 8/100, 80/100, 12/100, 90/100, 50000⟩).kfw_tilgungszuschuss
      = (calculate_investment_p55 ⟨100000, 3998, 2, 8/100, 80/100, 12/100, 90/100, 50000⟩).kfw_darlehen_basis * (40 / 100) ∧
    (calculate_investment_p55 ⟨100000, 3998, 2, 8/100, 80/100, 12/100, 90/100, 50000⟩).bankdarlehen = 0) :=
  C5_p55_loan_cap ⟨100000, 3998, 2, 8/100, 80/100, 12/100, 90/100, 50000⟩
    (by norm_num [calculate_investment_p55, ERWERBSNEBENKOSTEN_SATZ])
    (by norm_num [calculate_investment_p55, ERWERBSNEBENKOSTEN_SATZ])

/-- C6 (counterexample): in app.py `calculate_investment`, with a municipal
grant of 1000, renovation spend 1000, no units and no KfW base, the
renovation depreciation base becomes 1500 — larger than the pre-grant basis
of 1000 — because the derived "Eigenanteil" add-back (1.5 × the municipal
grant) inflates it, instead of the claimed grant-reduced, floored-at-0 value
max 0 (1000 − 1000 − 0) = 0. -/
theorem C6_counterexample :
    (calculate_investment_app ⟨0, 1000, 0, 1000, 0, 3998, 8, 0, 0, 0⟩).afa_basis_sanierung_vor_foerderung
      = 1000 ∧
    (calculate_investment_app ⟨0, 1000, 0, 1000, 0, 3998, 8, 0, 0, 0⟩).kommunale_foerderung
      = 1000 ∧
    (calculate_investment_app ⟨0, 1000, 0, 1000, 0, 3998, 8, 0, 0, 0⟩).kfw_tilgungszuschuss
      = 0 ∧
    (calculate_investment_app ⟨0, 1000, 0, 1000, 0, 3998, 8, 0, 0, 0⟩).afa_basis_sanierung
      = 1500 ∧
    (1500 : ℚ) ≠ max 0 (1000 - 1000 - 0) := by
  refine ⟨?_, ?_, ?_, ?_, by norm_num⟩ <;>
    norm_num [calculate_investment_app, KFW_ZUSCHUSS_BB_SATZ, KFW_ZUSCHUSS_261_SATZ]

/-- C6 (amended): the app.py renovation depreciation base equals the
pre-grant basis minus the repayment grant plus half the municipal grant
(the −1× grant and +1.5× "Eigenanteil" add-back net to +0.5×), floored at
0, with the diagnostic flag set exactly when the grants exceed a positive
pre-grant basis; the park55-app.py base is the renovation-allocated share
grossed up by incidental costs plus the capitalized supervision remainder,
with no grant reduction at all. -/
theorem C6_renovation_base (q : AppParams) (p : P55Params) :
    (calculate_investment_app q).afa_basis_sanierung
      = max 0 ((calculate_investment_app q).afa_basis_sanierung_vor_foerderung
          - (calculate_investment_app q).kfw_tilgungszuschuss
          + q.input_kommunale_foerderung / 2) ∧
    ((calculate_investment_app q).afa_hinweis = true ↔
      (calculate_investment_app q).afa_basis_sanierung_vor_foerderung
          < q.input_kommunale_foerderung
            + (calculate_investment_app q).kfw_tilgungszuschuss
        ∧ 0 < (calculate_investment_app q).afa_basis_sanierung_vor_foerderung) ∧
    (calculate_investment_p55 p).afa_basis_sanierung
      = p.input_gik_netto * p.input_sanierungskostenanteil
          * (1 + ERWERBSNEBENKOSTEN_SATZ)
        + (calculate_investment_p55 p).aktivierung_baubegleitung := by
  refine ⟨?_, ?_, ?_⟩
  · simp only [calculate_investment_app]
    congr 1
    ring
  · simp only [calculate_investment_app, decide_eq_true_eq]
  · simp only [calculate_investment_p55]

/-- C10: app.py `calculate_investment` ignores the user-supplied net GIK
parameter entirely: two parameter records differing only in
`input_gik_netto` produce identical results; for every nonnegative
renovated living area, the existing-building purchase price is
(area ÷ 1.4) × 650, the incidental acquisition costs are 6.5% of that
price, and the net GIK is that price plus renovation costs plus total
supervision costs. -/
theorem C10_gik_netto_ignored (q : AppParams) (v1 v2 : ℚ) :
    (calculate_investment_app { q with input_gik_netto := v1 }
      = calculate_investment_app { q with input_gik_netto := v2 }) ∧
    (0 ≤ q.input_wohnflaeche →
      (calculate_investment_app q).kaufpreis_bestand
          = q.input_wohnflaeche / (14 / 10) * 650 ∧
      (calculate_investment_app q).erwerbsnebenkosten
          = (calculate_investment_app q).kaufpreis_bestand * (65 / 1000) ∧
      (calculate_investment_app q).gik_netto
          = (calculate_investment_app q).kaufpreis_bestand
            + q.input_sanierungskosten_vor_zuschuss
            + (calculate_investment_app q).kosten_baubegleitung_gesamt) := by
  refine ⟨rfl, fun h => ⟨?_, rfl, rfl⟩⟩
  simp only [calculate_investment_app]
  rcases lt_or_eq_of_le h with h1 | h1
  · rw [if_pos h1]
  · rw [if_neg (by rw [← h1]; exact lt_irrefl 0), ← h1]
    norm_num

/-- Witness for C10 at a concrete record. -/
theorem C10_gik_netto_ignored_witness :
    (calculate_investment_app { (⟨0, 0, 140, 400000, 6, 3998, 8, 0, 100000, 20/100⟩ : AppParams) with input_gik_netto := 123 }
      = calculate_investment_app { (⟨0, 0, 140, 400000, 6, 3998, 8, 0, 100000, 20/100⟩ : AppParams) with input_gik_netto := 456 }) ∧
    (0 ≤ (⟨0, 0, 140, 400000, 6, 3998, 8, 0, 100000, 20/100⟩ : AppParams).input_wohnflaeche →
      (calculate_investment_app ⟨0, 0, 140, 400000, 6, 3998, 8, 0, 100000, 20/100⟩).kaufpreis_bestand
          = (⟨0, 0, 140, 400000, 6, 3998, 8, 0, 100000, 20/100⟩ : AppParams).input_wohnflaeche / (14 / 10) * 650 ∧
      (calculate_investment_app ⟨0, 0, 140, 400000, 6, 3998, 8, 0, 100000, 20/100⟩).erwerbsnebenkosten
          = (calculate_investment_app ⟨0, 0, 140, 400000, 6, 3998, 8, 0, 100000, 20/100⟩).kaufpreis_bestand * (65 / 1000) ∧
      (calculate_investment_app ⟨0, 0, 140, 400000, 6, 3998, 8, 0, 100000, 20/100⟩).gik_netto
          = (calculate_investment_app ⟨0, 0, 140, 400000, 6, 3998, 8, 0, 100000, 20/100⟩).kaufpreis_bestand
            + (⟨0, 0, 140, 400000, 6, 3998, 8, 0, 100000, 20/100⟩ : AppParams).input_sanierungskosten_vor_zuschuss
            + (calculate_investment_app ⟨0, 0, 140, 400000, 6, 3998, 8, 0, 100000, 20/100⟩).kosten_baubegleitung_gesamt) :=
  C10_gik_netto_ignored ⟨0, 0, 140, 400000, 6, 3998, 8, 0, 100000, 20/100⟩ 123 456

section PmtFailure

/-- A raising `npf.pmt` reaches the boundary year through the grace years:
the error aborts the remaining schedule computation. -/
theorem p55E_error_aux (pmt : ℚ → ℕ → ℚ → Option ℚ) (r : ℚ) (rl tf : ℕ)
    (Z D : ℚ) (hD : 1 / 100 < D) (hrest : 0 < max 0 (D - Z))
    (hpmt : pmt r rl (max 0 (D - Z)) = none) :
    ∀ d fuel, d ≤ tf → d + 1 ≤ fuel →
      schedRowsE (kfwStepP55E true pmt r rl tf Z) (tf + 1 - d) fuel ⟨D, 0⟩
        = .error "Finanzmathematische Berechnung fehlgeschlagen (KfW Annuitaet)." := by
  intro d
  induction d with
  | zero =>
    intro fuel _ hfuel
    obtain ⟨f, rfl⟩ : ∃ f, fuel = f + 1 := ⟨fuel - 1, by omega⟩
    rw [Nat.sub_zero]
    have hstep : kfwStepP55E true pmt r rl tf Z (tf + 1) ⟨D, 0⟩
        = .error "Finanzmathematische Berechnung fehlgeschlagen (KfW Annuitaet)." := by
      unfold kfwStepP55E
      rw [if_neg (by simp only []; exact not_le.mpr hD),
        if_neg (by omega), if_pos rfl]
      simp only [hrest, if_true]
      unfold p55BoundaryAnnuity
      rw [if_pos rfl, hpmt]
    rw [schedRowsE, hstep]
  | succ d ih =>
    intro fuel hd hfuel
    obtain ⟨f, rfl⟩ : ∃ f, fuel = f + 1 := ⟨fuel - 1, by omega⟩
    have hstep : kfwStepP55E true pmt r rl tf Z (tf + 1 - (d + 1)) ⟨D, 0⟩
        = .ok (⟨D * r, 0, D⟩, ⟨D, 0⟩) := by
      unfold kfwStepP55E
      rw [if_neg (by simp only []; exact not_le.mpr hD), if_pos (by omega)]
    rw [schedRowsE]
    simp only [hstep]
    have harith : tf + 1 - (d + 1) + 1 = tf + 1 - d := by omega
    rw [harith, ih f (by omega) (by omega)]

end PmtFailure

/-- C4 (counterexample): in app.py, a raising `npf.pmt` inside
`calculate_annuity` does not abort the run: the function falls back to the
manual closed-form annuity and returns the same strictly positive value the
no-library fallback computes (shown at principal 100000, rate 4%, 26
periods), instead of propagating a computation-failed error. -/
theorem C4_counterexample :
    calculate_annuity_pmt true none 100000 (1 / 25) 26
      = calculate_annuity_pmt false none 100000 (1 / 25) 26 ∧
    0 < calculate_annuity_pmt true none 100000 (1 / 25) 26 := by
  constructor
  · rfl
  · have h26 : (1 : ℚ) < (1 + 1 / 25) ^ 26 := one_lt_pow₀ (by norm_num) (by norm_num)
    have hval : calculate_annuity_pmt true none 100000 (1 / 25) 26
        = 100000 * ((1 + 1 / 25) ^ 26 * (1 / 25)) / ((1 + 1 / 25) ^ 26 - 1) := by
      unfold calculate_annuity_pmt
      rw [if_neg (by norm_num)]
      rw [if_neg (by norm_num : ¬(1 : ℚ) / 25 = 0)]
    rw [hval]
    apply div_pos
    · nlinarith
    · linarith

/-- C4 (amended): in the park55-app.py variant, whenever the financial-math
routine `npf.pmt` raises at the annuity computation of the subsidized loan
(boundary year `tf+1`, reached with a positive grant-reduced balance), the
whole KfW schedule computation of `calculate_financing_schedule` aborts
with the distinct fatal error "Finanzmathematische Berechnung
fehlgeschlagen (KfW Annuität)", which no caller catches — never a silent
zero or fallback.  The app.py variant instead falls back to a manual
formula inside `calculate_annuity` (see the counterexample). -/
theorem C4_p55_pmt_failure_aborts (pmt : ℚ → ℕ → ℚ → Option ℚ) (r : ℚ)
    (laufzeit tf horizon : ℕ) (D Z : ℚ)
    (hD : 1 / 100 < D) (hZD : Z < D)
    (hpmt : ∀ x n y, pmt x n y = none)
    (hhor : tf + 1 ≤ horizon) :
    kfwScheduleP55E true pmt r laufzeit tf D Z horizon
      = .error "Finanzmathematische Berechnung fehlgeschlagen (KfW Annuitaet)." := by
  have hrest : 0 < max 0 (D - Z) := by
    have hmax : max 0 (D - Z) = D - Z := max_eq_right (by linarith)
    rw [hmax]
    linarith
  unfold kfwScheduleP55E
  rw [if_pos (by linarith)]
  have h1 : (1 : ℕ) = tf + 1 - tf := by omega
  rw [h1]
  exact p55E_error_aux pmt r (laufzeit - tf) tf Z D hD hrest
    (hpmt r (laufzeit - tf) (max 0 (D - Z))) tf horizon le_rfl (by omega)

/-- Witness for C4 at a concrete configuration (rate 4%, term 30, grace 4,
loan 100000, grant 20000, horizon 30, always-raising pmt). -/
theorem C4_p55_pmt_failure_aborts_witness :
    kfwScheduleP55E true (fun _ _ _ => none) (1 / 25) 30 4 100000 20000 30
      = .error "Finanzmathematische Berechnung fehlgeschlagen (KfW Annuitaet)." :=
  C4_p55_pmt_failure_aborts (fun _ _ _ => none) (1 / 25) 30 4 30 100000 20000
    (by norm_num) (by norm_num) (fun _ _ _ => rfl) (by norm_num)

section P55Schedule

/-- Exit branch of the park55-app.py KfW loop. -/
theorem p55_step_exit (r : ℚ) (rl tf : ℕ) (Z : ℚ) (jahr : ℕ) (s : LoanState)
    (hs : s.rest ≤ 1 / 100) :
    kfwStepP55 r rl tf Z jahr s = (⟨0, 0, 0⟩, s) := by
  unfold kfwStepP55
  rw [if_pos hs]

/-- Grace-year branch of the park55-app.py KfW loop. -/
theorem p55_step_grace (r : ℚ) (rl tf : ℕ) (Z : ℚ) (jahr : ℕ) (s : LoanState)
    (hs : ¬s.rest ≤ 1 / 100) (hj : jahr ≤ tf) :
    kfwStepP55 r rl tf Z jahr s = (⟨s.rest * r, 0, s.rest⟩, s) := by
  unfold kfwStepP55
  rw [if_neg hs, if_pos hj]

/-- Through the grace years the park55-app.py loop state stays at the full
loan amount with no annuity in force. -/
theorem p55_state_grace (r : ℚ) (rl tf : ℕ) (Z D : ℚ) (hD : 1 / 100 < D) :
    ∀ j, j ≤ tf → schedStates (kfwStepP55 r rl tf Z) ⟨D, 0⟩ j = ⟨D, 0⟩ := by
  intro j
  induction j with
  | zero => intro _; rfl
  | succ j ih =>
    intro h
    rw [schedStates, ih (by omega),
      p55_step_grace r rl tf Z (j + 1) ⟨D, 0⟩ (not_le.mpr hD) h]

/-- Boundary-year step of the park55-app.py KfW loop on the untouched grace
state: the grant is applied first, then the annuity on the reduced balance
is computed and the first payment made (the cap on the last installment
does not fire). -/
theorem p55_step_boundary (r : ℚ) (rl tf : ℕ) (Z D : ℚ)
    (hr : 0 ≤ r) (hrl : rl ≠ 0) (hD : 1 / 100 < D) (hZ : 0 ≤ Z) (hZD : Z < D) :
    kfwStepP55 r rl tf Z (tf + 1) ⟨D, 0⟩
      = (⟨(D - Z) * r, annuityFormula r rl (D - Z) - (D - Z) * r,
          (D - Z) - (annuityFormula r rl (D - Z) - (D - Z) * r)⟩,
         ⟨(D - Z) - (annuityFormula r rl (D - Z) - (D - Z) * r),
          annuityFormula r rl (D - Z)⟩) := by
  have hmax : max 0 (D - Z) = D - Z := max_eq_right (by linarith)
  have hpos : (0 : ℚ) < D - Z := by linarith
  have hcap : ¬(D - Z) < annuityFormula r rl (D - Z) - (D - Z) * r := by
    have h : annuityFormula r rl (D - Z) ≤ (D - Z) * (1 + r) :=
      annuityFormula_le hr hrl hpos.le
    exact not_lt.mpr (by linarith)
  unfold kfwStepP55
  rw [if_neg (by simp only []; exact not_le.mpr hD), if_neg (by omega), if_pos rfl]
  simp only [hmax, hpos, if_true, if_pos hpos, if_neg hcap]

end P55Schedule

/-- C1 (counterexample): in app.py (annuity regime, grace period 4, term
30, rate 4%, loan 100000, grant 20000) the grant is applied at the end of
year 1, not at the start of the first amortization year: the year-1 closing
balance is already 80000 and the year-2 interest is 3200 = 4% of the
grant-reduced balance, not 4000 = 4% of the unreduced balance as the claim
requires for years 1–4. -/
theorem C1_counterexample :
    (kfwRowApp .annuitaet (1 / 25) 30 4 100000 20000 1).rest = 80000 ∧
    (kfwRowApp .annuitaet (1 / 25) 30 4 100000 20000 2).zins = 3200 ∧
    (3200 : ℚ) ≠ 100000 * (1 / 25) := by
  refine ⟨?_, ?_, by norm_num⟩ <;>
    norm_num [kfwRowApp, schedRow, schedStates, kfwStepApp, calculate_annuity]

/-- C1 (amended): the park55-app.py variant behaves exactly as the claim
states: with grace period `tf ≥ 1`, term `N > tf`, positive rate and a
grant smaller than the loan, years 1..tf show zero principal repayment and
interest `D * r > 0` on the unreduced balance `D`; at year `tf+1` the
accumulated grant is subtracted once, the non-zero annuity is computed on
the reduced balance `D - Z` over the remaining `N - tf` years, and the row
shows interest on the reduced balance.  In the app.py variant the grant is
instead applied at the end of year 1 (see the counterexample). -/
theorem C1_p55_grant_at_grace_boundary (r : ℚ) (N tf : ℕ) (D Z : ℚ)
    (hr : 0 < r) (hD : 1 / 100 < D) (hZ : 0 ≤ Z) (hZD : Z < D)
    (htf : 1 ≤ tf) (htfN : tf < N) :
    (∀ j, 1 ≤ j → j ≤ tf → kfwRowP55 r N tf D Z j = ⟨D * r, 0, D⟩) ∧
    0 < D * r ∧
    0 < annuityFormula r (N - tf) (D - Z) ∧
    kfwRowP55 r N tf D Z (tf + 1)
      = ⟨(D - Z) * r,
         annuityFormula r (N - tf) (D - Z) - (D - Z) * r,
         (D - Z) - (annuityFormula r (N - tf) (D - Z) - (D - Z) * r)⟩ := by
  have hD0 : (0 : ℚ) < D := by linarith
  have hrl : N - tf ≠ 0 := by omega
  refine ⟨fun j hj1 hjtf => ?_, by positivity, ?_, ?_⟩
  · unfold kfwRowP55 schedRow
    rw [if_pos hD0, p55_state_grace r (N - tf) tf Z D hD (j - 1) (by omega),
      p55_step_grace r (N - tf) tf Z j ⟨D, 0⟩ (not_le.mpr hD) hjtf]
  · exact annuityFormula_pos hr.le hrl (by linarith)
  · unfold kfwRowP55 schedRow
    rw [if_pos hD0]
    have h1 : tf + 1 - 1 = tf := by omega
    rw [h1, p55_state_grace r (N - tf) tf Z D hD tf le_rfl,
      p55_step_boundary r (N - tf) tf Z D hr.le hrl hD hZ hZD]

/-- Witness for C1 at rate 4%, term 30, grace 4, loan 100000, grant
20000. -/
theorem C1_p55_grant_at_grace_boundary_witness :
    (∀ j, 1 ≤ j → j ≤ 4 →
      kfwRowP55 (1 / 25) 30 4 100000 20000 j = ⟨100000 * (1 / 25), 0, 100000⟩) ∧
    (0 : ℚ) < 100000 * (1 / 25) ∧
    0 < annuityFormula (1 / 25) (30 - 4) ((100000 : ℚ) - 20000) ∧
    kfwRowP55 (1 / 25) 30 4 100000 20000 (4 + 1)
      = ⟨((100000 : ℚ) - 20000) * (1 / 25),
         annuityFormula (1 / 25) (30 - 4) ((100000 : ℚ) - 20000)
           - ((100000 : ℚ) - 20000) * (1 / 25),
         ((100000 : ℚ) - 20000)
           - (annuityFormula (1 / 25) (30 - 4) ((100000 : ℚ) - 20000)
             - ((100000 : ℚ) - 20000) * (1 / 25))⟩ :=
  C1_p55_grant_at_grace_boundary (1 / 25) 30 4 100000 20000
    (by norm_num) (by norm_num) (by norm_num) (by norm_num) (by norm_num) (by norm_num)

section BulletSchedule

/-- Epsilon-exit branch of the app.py KfW loop (only after year 1). -/
theorem app_step_exit (typ : KfwTyp) (r : ℚ) (N tf : ℕ) (Z : ℚ) (jahr : ℕ)
    (s : LoanState) (hs : s.rest ≤ 1 / 100) (hj : 1 < jahr) :
    kfwStepApp typ r N tf Z jahr s = (⟨0, 0, 0⟩, s) := by
  unfold kfwStepApp
  rw [if_pos ⟨hs, hj⟩]

/-- Year 1 of the app.py bullet regime: interest on the full balance, no
repayment, then the whole grant is applied to the balance. -/
theorem app_step_bullet_year1 (r : ℚ) (N : ℕ) (Z D : ℚ)
    (hD : 0 ≤ D) (hN : 2 ≤ N) :
    kfwStepApp .endfaellig r N 0 Z 1 ⟨D, 0⟩
      = (⟨D * r, 0, max 0 (D - Z)⟩, ⟨max 0 (D - Z), 0⟩) := by
  unfold kfwStepApp
  rw [if_neg (fun h => absurd h.2 (lt_irrefl 1))]
  simp only [if_neg (show ¬(1 : ℕ) = N by omega), if_neg (show ¬N < 1 by omega),
    if_neg (not_lt.mpr hD), if_pos rfl, eq_self_iff_true, if_true, sub_zero]

/-- Interest-only year of the app.py bullet regime strictly between year 1
and maturity. -/
theorem app_step_bullet_mid (r : ℚ) (N : ℕ) (Z B : ℚ) (jahr : ℕ)
    (hB : ¬B ≤ 1 / 100) (hB0 : 0 ≤ B) (hj1 : 1 < jahr) (hjN : jahr < N) :
    kfwStepApp .endfaellig r N 0 Z jahr ⟨B, 0⟩
      = (⟨B * r, 0, B⟩, ⟨B, 0⟩) := by
  unfold kfwStepApp
  rw [if_neg (fun h => hB h.1)]
  simp only [if_neg (show ¬jahr = N by omega), if_neg (show ¬N < jahr by omega),
    if_neg (not_lt.mpr hB0), if_neg (show ¬jahr = 1 by omega), sub_zero]

/-- Maturity year of the app.py bullet regime: the whole remaining balance
is repaid. -/
theorem app_step_bullet_maturity (r : ℚ) (N : ℕ) (Z B : ℚ)
    (hB : ¬B ≤ 1 / 100) (hN : 2 ≤ N) :
    kfwStepApp .endfaellig r N 0 Z N ⟨B, 0⟩
      = (⟨B * r, B, 0⟩, ⟨0, 0⟩) := by
  unfold kfwStepApp
  rw [if_neg (fun h => hB h.1)]
  simp only [if_pos rfl, eq_self_iff_true, if_true, if_neg (show ¬N < N by omega),
    if_neg (lt_irrefl B), if_neg (show ¬N = 1 by omega), sub_self]

/-- Bullet-regime loop state: `D - Z` after year 1 and up to the year
before maturity. -/
theorem bullet_state_mid (r : ℚ) (N : ℕ) (Z D : ℚ)
    (hD : 1 / 100 < D) (hZ : 0 ≤ Z) (hDZ : 1 / 100 < D - Z) (hN : 2 ≤ N) :
    ∀ j, 1 ≤ j → j < N →
      schedStates (kfwStepApp .endfaellig r N 0 Z) ⟨D, 0⟩ j = ⟨D - Z, 0⟩ := by
  have hmax : max 0 (D - Z) = D - Z := max_eq_right (by linarith)
  intro j
  induction j with
  | zero => omega
  | succ j ih =>
    intro _ hjN
    rcases Nat.eq_or_lt_of_le (show 1 ≤ j + 1 by omega) with h1 | h1
    · have hj0 : j = 0 := by omega
      subst hj0
      rw [schedStates]
      show (kfwStepApp .endfaellig r N 0 Z 1 ⟨D, 0⟩).2 = _
      rw [app_step_bullet_year1 r N Z D (by linarith) hN, hmax]
    · rw [schedStates, ih (by omega) (by omega),
        app_step_bullet_mid r N Z (D - Z) (j + 1) (not_le.mpr hDZ) (by linarith)
          (by omega) hjN]

/-- Bullet-regime loop state: 0 from maturity on. -/
theorem bullet_state_late (r : ℚ) (N : ℕ) (Z D : ℚ)
    (hD : 1 / 100 < D) (hZ : 0 ≤ Z) (hDZ : 1 / 100 < D - Z) (hN : 2 ≤ N) :
    ∀ j, N ≤ j →
      schedStates (kfwStepApp .endfaellig r N 0 Z) ⟨D, 0⟩ j = ⟨0, 0⟩ := by
  intro j hj
  induction j, hj using Nat.le_induction with
  | base =>
    obtain ⟨m, rfl⟩ : ∃ m, N = m + 1 := ⟨N - 1, by omega⟩
    rw [schedStates, bullet_state_mid r (m + 1) Z D hD hZ hDZ hN m (by omega) (by omega),
      app_step_bullet_maturity r (m + 1) Z (D - Z) (not_le.mpr hDZ) hN]
  | succ n hn ih =>
    rw [schedStates, ih,
      app_step_exit .endfaellig r N 0 Z (n + 1) ⟨0, 0⟩ (by norm_num) (by omega)]

end BulletSchedule

/-- C2 (counterexample): in the app.py bullet regime (term 20, rate 4%,
loan 100000, grant 20000) the grant is applied at the end of year 1, so
year 2 shows interest 3200 on the grant-reduced balance 80000, not 4000 on
the full unreduced balance as the claim requires for years 1..N−1. -/
theorem C2_counterexample :
    (kfwRowApp .endfaellig (1 / 25) 20 0 100000 20000 2).zins = 3200 ∧
    (kfwRowApp .endfaellig (1 / 25) 20 0 100000 20000 2).rest = 80000 ∧
    (3200 : ℚ) ≠ 100000 * (1 / 25) := by
  refine ⟨?_, ?_, by norm_num⟩ <;>
    norm_num [kfwRowApp, schedRow, schedStates, kfwStepApp]

/-- C2 (amended): in the app.py bullet regime with term `N ≥ 2` and a
grant smaller than the balance, year 1 shows interest on the full balance
and no repayment, with the grant applied to the balance at the end of year
1; years 2..N−1 show zero principal and interest on the grant-reduced
balance `D - Z`; at maturity year `N` the principal repayment is the
remaining balance `D - Z` (the original balance minus the grant) and the
balance becomes 0; all later years show zero interest, zero principal and
zero balance. -/
theorem C2_app_bullet_regime (r : ℚ) (N : ℕ) (D Z : ℚ)
    (hD : 1 / 100 < D) (hZ : 0 ≤ Z) (hDZ : 1 / 100 < D - Z) (hN : 2 ≤ N) :
    kfwRowApp .endfaellig r N 0 D Z 1 = ⟨D * r, 0, D - Z⟩ ∧
    (∀ j, 2 ≤ j → j < N →
      kfwRowApp .endfaellig r N 0 D Z j = ⟨(D - Z) * r, 0, D - Z⟩) ∧
    kfwRowApp .endfaellig r N 0 D Z N = ⟨(D - Z) * r, D - Z, 0⟩ ∧
    (∀ j, N < j → kfwRowApp .endfaellig r N 0 D Z j = ⟨0, 0, 0⟩) := by
  have hD0 : (0 : ℚ) < D := by linarith
  have hmax : max 0 (D - Z) = D - Z := max_eq_right (by linarith)
  refine ⟨?_, fun j hj2 hjN => ?_, ?_, fun j hj => ?_⟩
  · unfold kfwRowApp schedRow
    rw [if_pos hD0]
    show (kfwStepApp .endfaellig r N 0 Z 1 (schedStates _ ⟨D, 0⟩ 0)).1 = _
    rw [show schedStates (kfwStepApp .endfaellig r N 0 Z) ⟨D, 0⟩ 0 = ⟨D, 0⟩ from rfl,
      app_step_bullet_year1 r N Z D hD0.le hN, hmax]
  · unfold kfwRowApp schedRow
    rw [if_pos hD0, bullet_state_mid r N Z D hD hZ hDZ hN (j - 1) (by omega) (by omega),
      app_step_bullet_mid r N Z (D - Z) j (not_le.mpr hDZ) (by linarith) (by omega) hjN]
  · unfold kfwRowApp schedRow
    rw [if_pos hD0, bullet_state_mid r N Z D hD hZ hDZ hN (N - 1) (by omega) (by omega)]
    obtain ⟨m, rfl⟩ : ∃ m, N = m + 1 := ⟨N - 1, by omega⟩
    rw [app_step_bullet_maturity r (m + 1) Z (D - Z) (not_le.mpr hDZ) hN]
  · unfold kfwRowApp schedRow
    rw [if_pos hD0, bullet_state_late r N Z D hD hZ hDZ hN (j - 1) (by omega),
      app_step_exit .endfaellig r N 0 Z j ⟨0, 0⟩ (by norm_num) (by omega)]

/-- Witness for C2 at rate 4%, term 20, loan 100000, grant 20000. -/
theorem C2_app_bullet_regime_witness :
    kfwRowApp .endfaellig (1 / 25) 20 0 100000 20000 1
        = ⟨100000 * (1 / 25), 0, (100000 : ℚ) - 20000⟩ ∧
    (∀ j, 2 ≤ j → j < 20 →
      kfwRowApp .endfaellig (1 / 25) 20 0 100000 20000 j
        = ⟨((100000 : ℚ) - 20000) * (1 / 25), 0, (100000 : ℚ) - 20000⟩) ∧
    kfwRowApp .endfaellig (1 / 25) 20 0 100000 20000 20
        = ⟨((100000 : ℚ) - 20000) * (1 / 25), (100000 : ℚ) - 20000, 0⟩ ∧
    (∀ j, 20 < j → kfwRowApp .endfaellig (1 / 25) 20 0 100000 20000 j = ⟨0, 0, 0⟩) :=
  C2_app_bullet_regime (1 / 25) 20 100000 20000
    (by norm_num) (by norm_num) (by norm_num) (by norm_num)

section AnnuityLoop

/-- Dynamics of an amortization loop with fixed payment `annuityFormula r n
pv`, epsilon exit at 1/100, and the last installment capped at the
remaining balance (the common shape of the payment phases in
`calculate_financing_schedule`): the balance stays within `[0, pv]`, is
non-increasing, and after `n` payments it is exactly 0 unless the epsilon
exit froze it below 1/100 earlier. -/
theorem annuity_loop (r pv : ℚ) (n : ℕ) (g : ℕ → ℚ)
    (hr : 0 ≤ r) (hpv : 0 < pv) (hn : n ≠ 0) (h0 : g 0 = pv)
    (hstep : ∀ k, k + 1 ≤ n → g (k + 1) =
      if g k ≤ 1 / 100 then g k
      else g k - (if g k < annuityFormula r n pv - g k * r then g k
                  else annuityFormula r n pv - g k * r)) :
    (∀ k, k ≤ n → 0 ≤ g k ∧ g k ≤ pv) ∧
    (∀ k, k + 1 ≤ n → g (k + 1) ≤ g k) ∧
    (g (n - 1) ≤ 1 / 100 ∨ g n = 0) := by
  have ha := mul_rate_le_annuityFormula hr hn hpv.le
  have bound : ∀ k, k ≤ n → 0 ≤ g k ∧ g k ≤ pv := by
    intro k
    induction k with
    | zero => intro _; rw [h0]; exact ⟨hpv.le, le_rfl⟩
    | succ k ih =>
      intro hk
      obtain ⟨h1, h2⟩ := ih (by omega)
      have htilg : g k * r ≤ annuityFormula r n pv := by
        calc g k * r ≤ pv * r := mul_le_mul_of_nonneg_right h2 hr
        _ ≤ _ := ha
      rw [hstep k hk]
      split_ifs with hf hc
      · exact ⟨h1, h2⟩
      · constructor <;> linarith
      · constructor <;> linarith [not_lt.mp hc]
  refine ⟨bound, ?_, ?_⟩
  · intro k hk
    obtain ⟨h1, h2⟩ := bound k (by omega)
    have htilg : g k * r ≤ annuityFormula r n pv := by
      calc g k * r ≤ pv * r := mul_le_mul_of_nonneg_right h2 hr
      _ ≤ _ := ha
    rw [hstep k hk]
    split_ifs with hf hc
    · exact le_rfl
    · linarith
    · linarith
  · by_cases hA : ∃ k, k ≤ n - 1 ∧ g k ≤ 1 / 100
    · left
      obtain ⟨k0, hk0, hg0⟩ := hA
      have freeze : ∀ m, k0 ≤ m → m ≤ n - 1 → g m ≤ 1 / 100 := by
        intro m hm
        induction m, hm using Nat.le_induction with
        | base => intro _; exact hg0
        | succ m hm ih =>
          intro hmn
          rw [hstep m (by omega)]
          rw [if_pos (ih (by omega))]
          exact ih (by omega)
      exact freeze (n - 1) (by omega) le_rfl
    · right
      push_neg at hA
      have key : ∀ k, k ≤ n → g k = annuityBal r pv n k := by
        intro k
        induction k with
        | zero => intro _; rw [h0, annuityBal_zero hr hn]
        | succ k ih =>
          intro hk
          have hBk := ih (by omega)
          have hgk : 1 / 100 < g k := hA k (by omega)
          have hrec : annuityBal r pv n (k + 1)
              = annuityBal r pv n k * (1 + r) - annuityFormula r n pv :=
            annuityBal_rec hr hn k
          have hnext : 0 ≤ annuityBal r pv n (k + 1) :=
            annuityBal_nonneg hr hn hpv.le (by omega)
          have hcap : ¬g k < annuityFormula r n pv - g k * r := by
            rw [hBk]
            rw [hBk] at hgk
            apply not_lt.mpr
            nlinarith [hrec]
          rw [hstep k hk, if_neg (not_le.mpr hgk), if_neg hcap, hBk, hrec]
          ring
      rw [key n le_rfl]
      exact annuityBal_final hn

/-- Monotonicity of the emitted balance column from monotonicity of the
loop state: an epsilon-exit year reports 0, any other year reports the new
state balance. -/
theorem emitted_mono (st row : ℕ → ℚ) (j : ℕ)
    (hnnj : 0 ≤ st j)
    (hmono2 : st (j + 1) ≤ st j)
    (hrowj : row j = 0 ∨ row j = st j)
    (hrow_exit : st j ≤ 1 / 100 → row (j + 1) = 0)
    (hrow_act : ¬st j ≤ 1 / 100 → row (j + 1) = st (j + 1) ∧ row j = st j) :
    row (j + 1) ≤ row j ∧ 0 ≤ row j := by
  by_cases h : st j ≤ 1 / 100
  · rw [hrow_exit h]
    rcases hrowj with h1 | h1 <;> rw [h1]
    · exact ⟨le_rfl, le_rfl⟩
    · exact ⟨hnnj, hnnj⟩
  · obtain ⟨h1, h2⟩ := hrow_act h
    rw [h1, h2]
    exact ⟨hmono2, hnnj⟩

end AnnuityLoop

section BankSchedule

/-- Epsilon-exit branch of the bank loop. -/
theorem bank_step_exit (z annu : ℚ) (jahr : ℕ) (s : LoanState)
    (hs : s.rest ≤ 1 / 100) : bankStep z annu jahr s = (⟨0, 0, 0⟩, s) := by
  unfold bankStep
  rw [if_pos hs]

/-- In an active bank year, the emitted balance is the new state balance. -/
theorem bank_step_rest_eq (z annu : ℚ) (jahr : ℕ) (s : LoanState)
    (hs : ¬s.rest ≤ 1 / 100) :
    (bankStep z annu jahr s).1.rest = (bankStep z annu jahr s).2.rest := by
  unfold bankStep
  rw [if_neg hs]

/-- The bank-loan state balance stays within `[0, darlehen]`. -/
theorem bank_state_bounds (D z t : ℚ) (hz : 0 ≤ z) (ht : 0 ≤ t) (hD : 0 < D) :
    ∀ j, 0 ≤ (schedStates (bankStep z (D * (z + t))) ⟨D, 0⟩ j).rest ∧
      (schedStates (bankStep z (D * (z + t))) ⟨D, 0⟩ j).rest ≤ D := by
  intro j
  induction j with
  | zero => exact ⟨hD.le, le_rfl⟩
  | succ j ih =>
    rw [schedStates]
    set s := schedStates (bankStep z (D * (z + t))) ⟨D, 0⟩ j with hs
    obtain ⟨h1, h2⟩ := ih
    unfold bankStep
    split_ifs with hf
    · exact ⟨h1, h2⟩
    · simp only []
      split_ifs with hc
      · constructor <;> linarith
      · have htilg : 0 ≤ D * (z + t) - s.rest * z := by
          nlinarith [mul_nonneg hz (sub_nonneg.mpr h2), mul_nonneg hD.le ht]
        constructor <;> linarith [not_lt.mp hc]

/-- The bank-loan state balance is non-increasing. -/
theorem bank_state_mono (D z t : ℚ) (hz : 0 ≤ z) (ht : 0 ≤ t) (hD : 0 < D) :
    ∀ j, (schedStates (bankStep z (D * (z + t))) ⟨D, 0⟩ (j + 1)).rest ≤
      (schedStates (bankStep z (D * (z + t))) ⟨D, 0⟩ j).rest := by
  intro j
  obtain ⟨h1, h2⟩ := bank_state_bounds D z t hz ht hD j
  rw [schedStates]
  set s := schedStates (bankStep z (D * (z + t))) ⟨D, 0⟩ j with hs
  unfold bankStep
  split_ifs with hf
  · exact le_rfl
  · simp only []
    split_ifs with hc
    · linarith
    · have htilg : 0 ≤ D * (z + t) - s.rest * z := by
        nlinarith [mul_nonneg hz (sub_nonneg.mpr h2), mul_nonneg hD.le ht]
      linarith

/-- Emitted bank balance of year `j ≥ 1` under the loop guard. -/
theorem bank_row_rest (D z t : ℚ) (hD : 0 < D) (hzt : 0 < z + t)
    (j : ℕ) (hj : 1 ≤ j) :
    (bankRow D z t j).rest
      = if (schedStates (bankStep z (D * (z + t))) ⟨D, 0⟩ (j - 1)).rest ≤ 1 / 100
        then 0
        else (schedStates (bankStep z (D * (z + t))) ⟨D, 0⟩ j).rest := by
  unfold bankRow schedRow
  rw [if_pos ⟨hD, hzt⟩]
  obtain ⟨m, rfl⟩ : ∃ m, j = m + 1 := ⟨j - 1, by omega⟩
  rw [show m + 1 - 1 = m from rfl]
  by_cases h : (schedStates (bankStep z (D * (z + t))) ⟨D, 0⟩ m).rest ≤ 1 / 100
  · rw [if_pos h, bank_step_exit z (D * (z + t)) (m + 1) _ h]
  · rw [if_neg h, schedStates]
    exact bank_step_rest_eq z (D * (z + t)) (m + 1) _ h

end BankSchedule

/-- C8 (counterexample): with amortization rate 0 (interest rate 4.2%), the
bank-loan balance never decreases: at year 35 — the full app.py projection
horizon — the outstanding balance is still the initial 100000, so the bank
loan does not reach 0 within the projection horizon. -/
theorem C8_counterexample :
    (bankRow 100000 (21 / 500) 0 35).rest = 100000 ∧ (100000 : ℚ) ≠ 0 := by
  have hstate : ∀ j, schedStates (bankStep (21 / 500) (100000 * (21 / 500 + 0)))
      ⟨100000, 0⟩ j = ⟨100000, 0⟩ := by
    intro j
    induction j with
    | zero => rfl
    | succ j ih =>
      rw [schedStates, ih]
      unfold bankStep
      norm_num
  refine ⟨?_, by norm_num⟩
  unfold bankRow schedRow
  rw [if_pos (by norm_num), hstate 34]
  unfold bankStep
  norm_num

section AppAnnuitySchedule

/-- In any non-exit year of the app.py KfW loop, the emitted balance is the
new state balance. -/
theorem app_step_rest_eq (typ : KfwTyp) (r : ℚ) (N tf : ℕ) (Z : ℚ) (jahr : ℕ)
    (s : LoanState) (h : ¬(s.rest ≤ 1 / 100 ∧ 1 < jahr)) :
    (kfwStepApp typ r N tf Z jahr s).1.rest
      = (kfwStepApp typ r N tf Z jahr s).2.rest := by
  unfold kfwStepApp
  rw [if_neg h]
  by_cases hj : jahr = 1
  · cases typ <;> simp only [if_pos hj]
  · cases typ <;> simp only [if_neg hj]

/-- Subtracting an installment capped at the balance keeps the balance
nonnegative. -/
theorem sub_cap_nonneg (x T : ℚ) :
    0 ≤ x - if x < T then x else T := by
  split_ifs with h
  · simp
  · linarith [not_lt.mp h]

/-- The state balance of the app.py KfW loop never becomes negative: every
installment is capped at the remaining balance and the grant application is
floored at 0. -/
theorem app_state_rest_nonneg (typ : KfwTyp) (r : ℚ) (N tf : ℕ) (Z D : ℚ)
    (hD : 0 ≤ D) :
    ∀ j, 0 ≤ (schedStates (kfwStepApp typ r N tf Z) ⟨D, 0⟩ j).rest := by
  intro j
  induction j with
  | zero => exact hD
  | succ j ih =>
    rw [schedStates]
    set s := schedStates (kfwStepApp typ r N tf Z) ⟨D, 0⟩ j with hs
    unfold kfwStepApp
    by_cases hex : s.rest ≤ 1 / 100 ∧ 1 < j + 1
    · rw [if_pos hex]
      exact ih
    · rw [if_neg hex]
      by_cases hj : j + 1 = 1
      · cases typ <;> simp only [if_pos hj] <;> exact le_max_left 0 _
      · cases typ <;> simp only [if_neg hj] <;> exact sub_cap_nonneg s.rest _

/-- Year 1 of the app.py annuity regime with at least 2 grace years:
interest only, then the grant is applied; no annuity is computed yet. -/
theorem app_step_ann_year1a (r : ℚ) (N tf : ℕ) (Z D : ℚ)
    (hD0 : 0 ≤ D) (htf : 2 ≤ tf) :
    kfwStepApp .annuitaet r N tf Z 1 ⟨D, 0⟩
      = (⟨D * r, 0, max 0 (D - Z)⟩, ⟨max 0 (D - Z), 0⟩) := by
  unfold kfwStepApp
  rw [if_neg (fun h => absurd h.2 (lt_irrefl 1))]
  rw [if_neg (show ¬((1 : ℕ) = tf + 1 ∧ (2 ≤ tf ∨ (1 : ℕ) = 1) ∧ 0 < N - tf)
      by omega)]
  simp only [if_neg (show ¬tf < 1 by omega), if_neg (not_lt.mpr hD0), if_pos rfl,
    eq_self_iff_true, if_true, if_neg (show ¬tf < 2 by omega), sub_zero]

/-- Year 1 of the app.py annuity regime with exactly 1 grace year: interest
only, the grant is applied, and the annuity for years 2..N is immediately
computed on the reduced balance (when it is positive). -/
theorem app_step_ann_year1b (r : ℚ) (N : ℕ) (Z D : ℚ)
    (hD0 : 0 ≤ D) (hN : 2 ≤ N) :
    kfwStepApp .annuitaet r N 1 Z 1 ⟨D, 0⟩
      = (⟨D * r, 0, max 0 (D - Z)⟩,
         ⟨max 0 (D - Z),
          if 0 < max 0 (D - Z) then calculate_annuity (max 0 (D - Z)) r (N - 1)
          else 0⟩) := by
  unfold kfwStepApp
  rw [if_neg (fun h => absurd h.2 (lt_irrefl 1))]
  rw [if_neg (show ¬((1 : ℕ) = 1 + 1 ∧ (2 ≤ 1 ∨ (1 : ℕ) = 1) ∧ 0 < N - 1)
      by omega)]
  simp only [if_neg (show ¬(1 : ℕ) < 1 by omega), if_neg (not_lt.mpr hD0), if_pos rfl,
    eq_self_iff_true, if_true, if_pos (show (1 : ℕ) < 2 by omega),
    if_pos (show 0 < N - 1 by omega), sub_zero]

/-- Grace years 2..tf of the app.py annuity regime leave the loop state
unchanged (whether or not the epsilon exit fires). -/
theorem app_step_ann_preserve (r : ℚ) (N tf : ℕ) (Z : ℚ) (jahr : ℕ)
    (s : LoanState) (hj2 : 2 ≤ jahr) (hjtf : jahr ≤ tf) :
    (kfwStepApp .annuitaet r N tf Z jahr s).2 = s := by
  by_cases hs : s.rest ≤ 1 / 100
  · rw [app_step_exit .annuitaet r N tf Z jahr s hs (by omega)]
  · unfold kfwStepApp
    rw [if_neg (fun h => hs h.1)]
    simp only [if_neg (show ¬(jahr = tf + 1 ∧ (2 ≤ tf ∨ jahr = 1) ∧ 0 < N - tf)
        by omega),
      if_neg (show ¬tf < jahr by omega),
      if_neg (show ¬s.rest < 0 from not_lt.mpr (by linarith [not_le.mp hs])),
      if_neg (show ¬jahr = 1 by omega), sub_zero]

/-- First amortization year of the app.py annuity regime with at least 2
grace years: the annuity is computed on the current balance over the
remaining term and the first installment is paid. -/
theorem app_step_ann_boundary (r : ℚ) (N tf : ℕ) (Z : ℚ) (B A : ℚ)
    (hB : ¬B ≤ 1 / 100) (htf : 2 ≤ tf) (htfN : tf < N) :
    kfwStepApp .annuitaet r N tf Z (tf + 1) ⟨B, A⟩
      = (⟨B * r,
          if B < calculate_annuity B r (N - tf) - B * r then B
          else calculate_annuity B r (N - tf) - B * r,
          B - (if B < calculate_annuity B r (N - tf) - B * r then B
               else calculate_annuity B r (N - tf) - B * r)⟩,
         ⟨B - (if B < calculate_annuity B r (N - tf) - B * r then B
               else calculate_annuity B r (N - tf) - B * r),
          calculate_annuity B r (N - tf)⟩) := by
  unfold kfwStepApp
  rw [if_neg (fun h => hB h.1)]
  rw [if_pos (show (tf + 1 = tf + 1 ∧ (2 ≤ tf ∨ tf + 1 = 1) ∧ 0 < N - tf)
      from ⟨rfl, Or.inl htf, by omega⟩)]
  simp only [if_pos (show tf < tf + 1 by omega), if_neg (show ¬tf + 1 = 1 by omega)]

/-- A plain amortization year of the app.py annuity regime: no annuity
recomputation, installment `annu - zins` capped at the balance. -/
theorem app_step_ann_payment (r : ℚ) (N tf : ℕ) (Z : ℚ) (jahr : ℕ) (B A : ℚ)
    (hB : ¬B ≤ 1 / 100) (hj1 : 1 < jahr) (hjtf : tf < jahr)
    (hcond : ¬(jahr = tf + 1 ∧ (2 ≤ tf ∨ jahr = 1) ∧ 0 < N - tf)) :
    kfwStepApp .annuitaet r N tf Z jahr ⟨B, A⟩
      = (⟨B * r, if B < A - B * r then B else A - B * r,
          B - (if B < A - B * r then B else A - B * r)⟩,
         ⟨B - (if B < A - B * r then B else A - B * r), A⟩) := by
  unfold kfwStepApp
  rw [if_neg (fun h => hB h.1)]
  simp only [if_neg hcond, if_pos hjtf, if_neg (show ¬jahr = 1 by omega)]

/-- Through grace years 2..tf the app.py annuity state equals the state
after year 1. -/
theorem app_ann_state_grace (r : ℚ) (N tf : ℕ) (Z D : ℚ) :
    ∀ j, 1 ≤ j → j ≤ tf →
      schedStates (kfwStepApp .annuitaet r N tf Z) ⟨D, 0⟩ j
        = schedStates (kfwStepApp .annuitaet r N tf Z) ⟨D, 0⟩ 1 := by
  intro j hj
  induction j, hj using Nat.le_induction with
  | base => intro _; rfl
  | succ m hm ih =>
    intro hmtf
    rw [schedStates, ih (by omega),
      app_step_ann_preserve r N tf Z (m + 1) _ (by omega) hmtf]

/-- Emitted app.py annuity-regime balance of year `j ≥ 1` when the loan is
positive: 0 in an epsilon-exit year, the new state balance otherwise. -/
theorem app_ann_row_rest (r : ℚ) (N tf : ℕ) (D Z : ℚ) (hD : 0 < D)
    (j : ℕ) (hj : 1 ≤ j) :
    (kfwRowApp .annuitaet r N tf D Z j).rest
      = if (schedStates (kfwStepApp .annuitaet r N tf Z) ⟨D, 0⟩ (j - 1)).rest
            ≤ 1 / 100 ∧ 1 < j
        then 0
        else (schedStates (kfwStepApp .annuitaet r N tf Z) ⟨D, 0⟩ j).rest := by
  unfold kfwRowApp schedRow
  rw [if_pos hD]
  obtain ⟨m, rfl⟩ : ∃ m, j = m + 1 := ⟨j - 1, by omega⟩
  rw [show m + 1 - 1 = m from rfl]
  by_cases h : (schedStates (kfwStepApp .annuitaet r N tf Z) ⟨D, 0⟩ m).rest
      ≤ 1 / 100 ∧ 1 < m + 1
  · rw [if_pos h, app_step_exit .annuitaet r N tf Z (m + 1) _ h.1 h.2]
  · rw [if_neg h, schedStates]
    exact app_step_rest_eq .annuitaet r N tf Z (m + 1) _ h

end AppAnnuitySchedule

section AppAnnuityPhase

/-- `app_step_ann_payment` restated for a projected state. -/
theorem app_step_ann_payment2 (r : ℚ) (N tf : ℕ) (Z : ℚ) (jahr : ℕ)
    (s : LoanState) (hB : ¬s.rest ≤ 1 / 100) (hj1 : 1 < jahr) (hjtf : tf < jahr)
    (hcond : ¬(jahr = tf + 1 ∧ (2 ≤ tf ∨ jahr = 1) ∧ 0 < N - tf)) :
    kfwStepApp .annuitaet r N tf Z jahr s
      = (⟨s.rest * r,
          if s.rest < s.annu - s.rest * r then s.rest else s.annu - s.rest * r,
          s.rest - (if s.rest < s.annu - s.rest * r then s.rest
                    else s.annu - s.rest * r)⟩,
         ⟨s.rest - (if s.rest < s.annu - s.rest * r then s.rest
                    else s.annu - s.rest * r), s.annu⟩) :=
  app_step_ann_payment r N tf Z jahr s.rest s.annu hB hj1 hjtf hcond

/-- State after year 1 of the app.py annuity regime: grant-reduced balance,
and (only with a single grace year and a positive reduced balance) the
freshly computed annuity. -/
theorem app_ann_state1 (r : ℚ) (N tf : ℕ) (Z D : ℚ)
    (hD0 : 0 ≤ D) (htf : 1 ≤ tf) (htfN : tf < N) :
    schedStates (kfwStepApp .annuitaet r N tf Z) ⟨D, 0⟩ 1
      = ⟨max 0 (D - Z),
         if tf = 1 ∧ 0 < max 0 (D - Z)
         then calculate_annuity (max 0 (D - Z)) r (N - 1) else 0⟩ := by
  rcases eq_or_lt_of_le htf with h1 | h2
  · subst h1
    show (kfwStepApp .annuitaet r N 1 Z 1 ⟨D, 0⟩).2 = _
    rw [app_step_ann_year1b r N Z D hD0 (by omega)]
    by_cases hp : 0 < max 0 (D - Z)
    · rw [if_pos hp, if_pos ⟨rfl, hp⟩]
    · rw [if_neg hp, if_neg (fun hc => hp hc.2)]
  · show (kfwStepApp .annuitaet r N tf Z 1 ⟨D, 0⟩).2 = _
    rw [app_step_ann_year1a r N tf Z D hD0 h2,
      if_neg (fun hc => absurd hc.1 (by omega))]

/-- Payment phase of the app.py annuity regime: from year `tf+1` on the
loop state carries the annuity computed on the grant-reduced balance
`max 0 (D - Z)` over `N - tf` periods, and the balance follows the capped
amortization recurrence with epsilon freeze. -/
theorem app_ann_phase (r : ℚ) (N tf : ℕ) (Z D : ℚ)
    (hD0 : 0 ≤ D) (htf : 1 ≤ tf) (htfN : tf < N)
    (hS : ¬max 0 (D - Z) ≤ 1 / 100) :
    ∃ g : ℕ → ℚ,
      g 0 = max 0 (D - Z) ∧
      (∀ k, 1 ≤ k →
        schedStates (kfwStepApp .annuitaet r N tf Z) ⟨D, 0⟩ (tf + k)
          = ⟨g k, annuityFormula r (N - tf) (max 0 (D - Z))⟩) ∧
      (∀ k, g (k + 1) =
        if g k ≤ 1 / 100 then g k
        else g k -
          (if g k < annuityFormula r (N - tf) (max 0 (D - Z)) - g k * r
           then g k
           else annuityFormula r (N - tf) (max 0 (D - Z)) - g k * r)) := by
  have hS0 : 0 < max 0 (D - Z) := lt_trans (by norm_num) (not_le.mp hS)
  have hannu_eq : calculate_annuity (max 0 (D - Z)) r (N - tf)
      = annuityFormula r (N - tf) (max 0 (D - Z)) := by
    unfold calculate_annuity
    rw [if_neg (show ¬(max 0 (D - Z) ≤ 0 ∨ N - tf = 0) from fun h =>
      h.elim (fun h1 => absurd hS0 (not_lt.mpr h1)) (fun h2 => by omega))]
  have hbase : schedStates (kfwStepApp .annuitaet r N tf Z) ⟨D, 0⟩ (tf + 1)
      = ⟨max 0 (D - Z) -
          (if max 0 (D - Z) < annuityFormula r (N - tf) (max 0 (D - Z))
                - max 0 (D - Z) * r
           then max 0 (D - Z)
           else annuityFormula r (N - tf) (max 0 (D - Z))
                - max 0 (D - Z) * r),
         annuityFormula r (N - tf) (max 0 (D - Z))⟩ := by
    rcases eq_or_lt_of_le htf with h1 | h2
    · subst h1
      rw [schedStates, app_ann_state1 r N 1 Z D hD0 le_rfl htfN,
        if_pos ⟨rfl, hS0⟩,
        app_step_ann_payment r N 1 Z (1 + 1) (max 0 (D - Z))
          (calculate_annuity (max 0 (D - Z)) r (N - 1)) hS (by omega) (by omega)
          (by omega),
        hannu_eq]
    · rw [schedStates, app_ann_state_grace r N tf Z D tf htf le_rfl,
        app_ann_state1 r N tf Z D hD0 htf htfN,
        if_neg (fun hc => absurd hc.1 (by omega)),
        app_step_ann_boundary r N tf Z (max 0 (D - Z)) 0 hS h2 htfN,
        hannu_eq]
  have honestep : ∀ k, 1 ≤ k →
      (schedStates (kfwStepApp .annuitaet r N tf Z) ⟨D, 0⟩ (tf + k)).annu
        = annuityFormula r (N - tf) (max 0 (D - Z)) →
      schedStates (kfwStepApp .annuitaet r N tf Z) ⟨D, 0⟩ (tf + k + 1)
        = if (schedStates (kfwStepApp .annuitaet r N tf Z) ⟨D, 0⟩
              (tf + k)).rest ≤ 1 / 100
          then schedStates (kfwStepApp .annuitaet r N tf Z) ⟨D, 0⟩ (tf + k)
          else
            ⟨(schedStates (kfwStepApp .annuitaet r N tf Z) ⟨D, 0⟩
                (tf + k)).rest -
              (if (schedStates (kfwStepApp .annuitaet r N tf Z) ⟨D, 0⟩
                    (tf + k)).rest
                  < annuityFormula r (N - tf) (max 0 (D - Z)) -
                    (schedStates (kfwStepApp .annuitaet r N tf Z) ⟨D, 0⟩
                      (tf + k)).rest * r
               then (schedStates (kfwStepApp .annuitaet r N tf Z) ⟨D, 0⟩
                      (tf + k)).rest
               else annuityFormula r (N - tf) (max 0 (D - Z)) -
                    (schedStates (kfwStepApp .annuitaet r N tf Z) ⟨D, 0⟩
                      (tf + k)).rest * r),
             annuityFormula r (N - tf) (max 0 (D - Z))⟩ := by
    intro k hk hannu
    rw [schedStates]
    by_cases hrest : (schedStates (kfwStepApp .annuitaet r N tf Z) ⟨D, 0⟩
        (tf + k)).rest ≤ 1 / 100
    · rw [if_pos hrest,
        app_step_exit .annuitaet r N tf Z (tf + k + 1) _ hrest (by omega)]
    · rw [if_neg hrest,
        app_step_ann_payment2 r N tf Z (tf + k + 1) _ hrest (by omega) (by omega)
          (by omega),
        hannu]
  have hannu_all : ∀ k, 1 ≤ k →
      (schedStates (kfwStepApp .annuitaet r N tf Z) ⟨D, 0⟩ (tf + k)).annu
        = annuityFormula r (N - tf) (max 0 (D - Z)) := by
    intro k hk
    induction k, hk using Nat.le_induction with
    | base => rw [hbase]
    | succ m hm ih =>
      show (schedStates (kfwStepApp .annuitaet r N tf Z) ⟨D, 0⟩
        (tf + m + 1)).annu = _
      rw [honestep m hm ih]
      split_ifs <;> first | assumption | rfl
  have hrest_dyn : ∀ k, 1 ≤ k →
      (schedStates (kfwStepApp .annuitaet r N tf Z) ⟨D, 0⟩ (tf + k + 1)).rest
        = if (schedStates (kfwStepApp .annuitaet r N tf Z) ⟨D, 0⟩
              (tf + k)).rest ≤ 1 / 100
          then (schedStates (kfwStepApp .annuitaet r N tf Z) ⟨D, 0⟩
              (tf + k)).rest
          else (schedStates (kfwStepApp .annuitaet r N tf Z) ⟨D, 0⟩
              (tf + k)).rest -
            (if (schedStates (kfwStepApp .annuitaet r N tf Z) ⟨D, 0⟩
                  (tf + k)).rest
                < annuityFormula r (N - tf) (max 0 (D - Z)) -
                  (schedStates (kfwStepApp .annuitaet r N tf Z) ⟨D, 0⟩
                    (tf + k)).rest * r
             then (schedStates (kfwStepApp .annuitaet r N tf Z) ⟨D, 0⟩
                    (tf + k)).rest
             else annuityFormula r (N - tf) (max 0 (D - Z)) -
                  (schedStates (kfwStepApp .annuitaet r N tf Z) ⟨D, 0⟩
                    (tf + k)).rest * r) := by
    intro k hk
    rw [honestep k hk (hannu_all k hk)]
    split_ifs <;> rfl
  refine ⟨fun k => if k = 0 then max 0 (D - Z)
      else (schedStates (kfwStepApp .annuitaet r N tf Z) ⟨D, 0⟩ (tf + k)).rest,
    by norm_num, ?_, ?_⟩
  · intro k hk
    simp only [if_neg (show ¬k = 0 by omega)]
    rw [← hannu_all k hk]
  · intro k
    by_cases hk0 : k = 0
    · subst hk0
      simp only [if_neg (show ¬(0 : ℕ) + 1 = 0 by omega), eq_self_iff_true,
        if_true]
      show (schedStates (kfwStepApp .annuitaet r N tf Z) ⟨D, 0⟩
        (tf + 1)).rest = _
      rw [hbase, if_neg hS]
    · simp only [if_neg hk0, if_neg (show ¬k + 1 = 0 by omega)]
      show (schedStates (kfwStepApp .annuitaet r N tf Z) ⟨D, 0⟩
        (tf + k + 1)).rest = _
      exact hrest_dyn k (by omega)


/-- Abstract transfer of state-level invariants to the emitted balance
column, for a loop whose row characterization has the common epsilon-exit
shape. -/
theorem rows_nonneg_mono (st row : ℕ → ℚ)
    (hstnn : ∀ j, 0 ≤ st j)
    (hstmono : ∀ j, 1 ≤ j → st (j + 1) ≤ st j)
    (hchar : ∀ j, 1 ≤ j → row j
      = if st (j - 1) ≤ 1 / 100 ∧ 1 < j then 0 else st j) :
    ∀ j, 1 ≤ j → 0 ≤ row j ∧ row (j + 1) ≤ row j := by
  intro j hj
  have hcj := hchar j hj
  have hcj1 := hchar (j + 1) (by omega)
  rw [show j + 1 - 1 = j from rfl] at hcj1
  constructor
  · rw [hcj]
    split_ifs with h1
    · exact le_rfl
    · exact hstnn j
  · by_cases h2 : st j ≤ 1 / 100
    · rw [hcj1, if_pos (And.intro h2 (show 1 < j + 1 by omega)), hcj]
      split_ifs with h1
      · exact le_rfl
      · exact hstnn j
    · have hnotc : ¬(st (j - 1) ≤ 1 / 100 ∧ 1 < j) := by
        rintro ⟨hc1, hc2⟩
        have h := hstmono (j - 1) (by omega)
        rw [show j - 1 + 1 = j by omega] at h
        exact h2 (le_trans h hc1)
      rw [hcj1, if_neg (show ¬(st j ≤ 1 / 100 ∧ 1 < j + 1)
          from fun hc => h2 hc.1), hcj, if_neg hnotc]
      exact hstmono j hj

/-- Once the year-1 state balance is at most the epsilon, the app.py KfW
loop state never changes again. -/
theorem app_frozen_state (typ : KfwTyp) (r : ℚ) (N tft : ℕ) (Z D : ℚ)
    (hfreeze : (schedStates (kfwStepApp typ r N tft Z) ⟨D, 0⟩ 1).rest
      ≤ 1 / 100) :
    ∀ j, 1 ≤ j → schedStates (kfwStepApp typ r N tft Z) ⟨D, 0⟩ j
      = schedStates (kfwStepApp typ r N tft Z) ⟨D, 0⟩ 1 := by
  intro j hj
  induction j, hj using Nat.le_induction with
  | base => rfl
  | succ m hm ih =>
    rw [schedStates, ih,
      app_step_exit typ r N tft Z (m + 1) _ hfreeze (by omega)]

/-- Bullet-regime analogue of `app_ann_row_rest`: emitted balance of year
`j ≥ 1` when the loan is positive (the loop forces the grace parameter to
0 in this regime). -/
theorem app_bullet_row_rest (r : ℚ) (N tf : ℕ) (D Z : ℚ) (hD : 0 < D)
    (j : ℕ) (hj : 1 ≤ j) :
    (kfwRowApp .endfaellig r N tf D Z j).rest
      = if (schedStates (kfwStepApp .endfaellig r N 0 Z) ⟨D, 0⟩ (j - 1)).rest
            ≤ 1 / 100 ∧ 1 < j
        then 0
        else (schedStates (kfwStepApp .endfaellig r N 0 Z) ⟨D, 0⟩ j).rest := by
  unfold kfwRowApp schedRow
  rw [if_pos hD]
  obtain ⟨m, rfl⟩ : ∃ m, j = m + 1 := ⟨j - 1, by omega⟩
  rw [show m + 1 - 1 = m from rfl]
  by_cases h : (schedStates (kfwStepApp .endfaellig r N 0 Z) ⟨D, 0⟩ m).rest
      ≤ 1 / 100 ∧ 1 < m + 1
  · rw [if_pos h, app_step_exit .endfaellig r N 0 Z (m + 1) _ h.1 h.2]
  · rw [if_neg h, schedStates]
    exact app_step_rest_eq .endfaellig r N 0 Z (m + 1) _ h

/-- Year 1 of the app.py annuity regime without grace years: the annuity on
the full balance over the whole term is computed and its first installment
paid, then the grant is applied and the annuity recomputed on the reduced
balance over the remaining N−1 years (when positive). -/
theorem app_step_ann_year1_tf0 (r : ℚ) (N : ℕ) (Z D T : ℚ) (hN : 2 ≤ N)
    (hT : T = if D < calculate_annuity D r N - D * r then D
              else calculate_annuity D r N - D * r) :
    kfwStepApp .annuitaet r N 0 Z 1 ⟨D, 0⟩
      = (⟨D * r, T, max 0 (D - T - Z)⟩,
         ⟨max 0 (D - T - Z),
          if 0 < max 0 (D - T - Z)
          then calculate_annuity (max 0 (D - T - Z)) r (N - 1)
          else calculate_annuity D r N⟩) := by
  subst hT
  unfold kfwStepApp
  rw [if_neg (fun h => absurd h.2 (lt_irrefl 1))]
  rw [if_pos (show ((1 : ℕ) = 0 + 1 ∧ (2 ≤ 0 ∨ (1 : ℕ) = 1) ∧ 0 < N - 0)
      from ⟨rfl, Or.inr rfl, by omega⟩)]
  simp only [if_pos (show (0 : ℕ) < 1 by omega), eq_self_iff_true, if_true,
    if_pos (show (0 : ℕ) < 2 by omega), if_pos (show 0 < N - 1 by omega),
    Nat.sub_zero]

/-- Generic payment phase of the app.py annuity regime, anchored at a year
`m0` past the grace period from which no annuity recomputation can occur:
the state annuity stays constant and the balance follows the capped
amortization recurrence with epsilon freeze. -/
theorem app_ann_payment_phase (r : ℚ) (N tf : ℕ) (Z D : ℚ) (m0 : ℕ)
    (S A : ℚ) (hm01 : 1 ≤ m0) (hm0tf : tf ≤ m0)
    (hnorec : ∀ j, m0 < j → ¬(j = tf + 1 ∧ (2 ≤ tf ∨ j = 1) ∧ 0 < N - tf))
    (hanchor : schedStates (kfwStepApp .annuitaet r N tf Z) ⟨D, 0⟩ m0
      = ⟨S, A⟩) :
    ∃ g : ℕ → ℚ,
      g 0 = S ∧
      (∀ k, schedStates (kfwStepApp .annuitaet r N tf Z) ⟨D, 0⟩ (m0 + k)
        = ⟨g k, A⟩) ∧
      (∀ k, g (k + 1) =
        if g k ≤ 1 / 100 then g k
        else g k - (if g k < A - g k * r then g k else A - g k * r)) := by
  have honestep : ∀ k,
      (schedStates (kfwStepApp .annuitaet r N tf Z) ⟨D, 0⟩ (m0 + k)).annu
        = A →
      schedStates (kfwStepApp .annuitaet r N tf Z) ⟨D, 0⟩ (m0 + k + 1)
        = if (schedStates (kfwStepApp .annuitaet r N tf Z) ⟨D, 0⟩
              (m0 + k)).rest ≤ 1 / 100
          then schedStates (kfwStepApp .annuitaet r N tf Z) ⟨D, 0⟩ (m0 + k)
          else
            ⟨(schedStates (kfwStepApp .annuitaet r N tf Z) ⟨D, 0⟩
                (m0 + k)).rest -
              (if (schedStates (kfwStepApp .annuitaet r N tf Z) ⟨D, 0⟩
                    (m0 + k)).rest
                  < A - (schedStates (kfwStepApp .annuitaet r N tf Z) ⟨D, 0⟩
                      (m0 + k)).rest * r
               then (schedStates (kfwStepApp .annuitaet r N tf Z) ⟨D, 0⟩
                      (m0 + k)).rest
               else A - (schedStates (kfwStepApp .annuitaet r N tf Z) ⟨D, 0⟩
                      (m0 + k)).rest * r),
             A⟩ := by
    intro k hannu
    rw [schedStates]
    by_cases hrest : (schedStates (kfwStepApp .annuitaet r N tf Z) ⟨D, 0⟩
        (m0 + k)).rest ≤ 1 / 100
    · rw [if_pos hrest,
        app_step_exit .annuitaet r N tf Z (m0 + k + 1) _ hrest (by omega)]
    · rw [if_neg hrest,
        app_step_ann_payment2 r N tf Z (m0 + k + 1) _ hrest (by omega)
          (by omega) (hnorec (m0 + k + 1) (by omega)),
        hannu]
  have hannu_all : ∀ k,
      (schedStates (kfwStepApp .annuitaet r N tf Z) ⟨D, 0⟩ (m0 + k)).annu
        = A := by
    intro k
    induction k with
    | zero =>
      show (schedStates (kfwStepApp .annuitaet r N tf Z) ⟨D, 0⟩ m0).annu = A
      rw [hanchor]
    | succ k ih =>
      show (schedStates (kfwStepApp .annuitaet r N tf Z) ⟨D, 0⟩
        (m0 + k + 1)).annu = A
      rw [honestep k ih]
      split_ifs <;> first | assumption | rfl
  have hrest_dyn : ∀ k,
      (schedStates (kfwStepApp .annuitaet r N tf Z) ⟨D, 0⟩ (m0 + k + 1)).rest
        = if (schedStates (kfwStepApp .annuitaet r N tf Z) ⟨D, 0⟩
              (m0 + k)).rest ≤ 1 / 100
          then (schedStates (kfwStepApp .annuitaet r N tf Z) ⟨D, 0⟩
              (m0 + k)).rest
          else (schedStates (kfwStepApp .annuitaet r N tf Z) ⟨D, 0⟩
              (m0 + k)).rest -
            (if (schedStates (kfwStepApp .annuitaet r N tf Z) ⟨D, 0⟩
                  (m0 + k)).rest
                < A - (schedStates (kfwStepApp .annuitaet r N tf Z) ⟨D, 0⟩
                    (m0 + k)).rest * r
             then (schedStates (kfwStepApp .annuitaet r N tf Z) ⟨D, 0⟩
                    (m0 + k)).rest
             else A - (schedStates (kfwStepApp .annuitaet r N tf Z) ⟨D, 0⟩
                    (m0 + k)).rest * r) := by
    intro k
    rw [honestep k (hannu_all k)]
    split_ifs <;> rfl
  refine ⟨fun k => (schedStates (kfwStepApp .annuitaet r N tf Z) ⟨D, 0⟩
      (m0 + k)).rest, ?_, ?_, ?_⟩
  · show (schedStates (kfwStepApp .annuitaet r N tf Z) ⟨D, 0⟩ m0).rest = S
    rw [hanchor]
  · intro k
    show schedStates (kfwStepApp .annuitaet r N tf Z) ⟨D, 0⟩ (m0 + k)
      = ⟨(schedStates (kfwStepApp .annuitaet r N tf Z) ⟨D, 0⟩ (m0 + k)).rest,
         A⟩
    rw [← hannu_all k]
  · intro k
    show (schedStates (kfwStepApp .annuitaet r N tf Z) ⟨D, 0⟩
        (m0 + k + 1)).rest
      = if (schedStates (kfwStepApp .annuitaet r N tf Z) ⟨D, 0⟩
            (m0 + k)).rest ≤ 1 / 100
        then (schedStates (kfwStepApp .annuitaet r N tf Z) ⟨D, 0⟩
            (m0 + k)).rest
        else (schedStates (kfwStepApp .annuitaet r N tf Z) ⟨D, 0⟩
            (m0 + k)).rest -
          (if (schedStates (kfwStepApp .annuitaet r N tf Z) ⟨D, 0⟩
                (m0 + k)).rest
              < A - (schedStates (kfwStepApp .annuitaet r N tf Z) ⟨D, 0⟩
                  (m0 + k)).rest * r
           then (schedStates (kfwStepApp .annuitaet r N tf Z) ⟨D, 0⟩
                  (m0 + k)).rest
           else A - (schedStates (kfwStepApp .annuitaet r N tf Z) ⟨D, 0⟩
                  (m0 + k)).rest * r)
    exact hrest_dyn k

end AppAnnuityPhase

/-- C8 (amended): in app.py `calculate_financing_schedule`, for nonnegative
rates and grant and a term `N ≥ 2`, every emitted outstanding balance (bank
loan and KfW loan, in both repayment regimes, for any grace period
`tf < N`) is nonnegative and non-increasing from year to year, and the KfW
balance column is exactly 0 at the term year `N` in both regimes. The bank
loan, however, need not reach 0 within the projection horizon (see the
counterexample), so the original claim's bank-maturity part is dropped. -/
theorem C8_loan_invariants (B z t r Z D : ℚ) (N tf : ℕ)
    (hz : 0 ≤ z) (ht : 0 ≤ t) (hr : 0 ≤ r) (hZ : 0 ≤ Z)
    (hN : 2 ≤ N) (htfN : tf < N) :
    (∀ j, 1 ≤ j → 0 ≤ (bankRow B z t j).rest ∧
      (bankRow B z t (j + 1)).rest ≤ (bankRow B z t j).rest) ∧
    (∀ j, 1 ≤ j → 0 ≤ (kfwRowApp .annuitaet r N tf D Z j).rest ∧
      (kfwRowApp .annuitaet r N tf D Z (j + 1)).rest
        ≤ (kfwRowApp .annuitaet r N tf D Z j).rest) ∧
    (kfwRowApp .annuitaet r N tf D Z N).rest = 0 ∧
    (∀ j, 1 ≤ j → 0 ≤ (kfwRowApp .endfaellig r N tf D Z j).rest ∧
      (kfwRowApp .endfaellig r N tf D Z (j + 1)).rest
        ≤ (kfwRowApp .endfaellig r N tf D Z j).rest) ∧
    (kfwRowApp .endfaellig r N tf D Z N).rest = 0 := by
  have hbank : ∀ j, 1 ≤ j → 0 ≤ (bankRow B z t j).rest ∧
      (bankRow B z t (j + 1)).rest ≤ (bankRow B z t j).rest := by
    intro j hj
    by_cases hg : 0 < B ∧ 0 < z + t
    · have hb := bank_state_bounds B z t hz ht hg.1
      have hm := bank_state_mono B z t hz ht hg.1
      have hc1 := bank_row_rest B z t hg.1 hg.2 j hj
      have hc2 := bank_row_rest B z t hg.1 hg.2 (j + 1) (by omega)
      rw [show j + 1 - 1 = j from rfl] at hc2
      have hmono1 : (schedStates (bankStep z (B * (z + t))) ⟨B, 0⟩ j).rest
          ≤ (schedStates (bankStep z (B * (z + t))) ⟨B, 0⟩ (j - 1)).rest := by
        have h := bank_state_mono B z t hz ht hg.1 (j - 1)
        rwa [show j - 1 + 1 = j by omega] at h
      constructor
      · rw [hc1]
        split_ifs with h1
        · exact le_rfl
        · exact (hb j).1
      · rw [hc1, hc2]
        by_cases h1 : (schedStates (bankStep z (B * (z + t))) ⟨B, 0⟩
            (j - 1)).rest ≤ 1 / 100
        · by_cases h2 : (schedStates (bankStep z (B * (z + t))) ⟨B, 0⟩
              j).rest ≤ 1 / 100
          · rw [if_pos h1, if_pos h2]
          · exact absurd (le_trans hmono1 h1) h2
        · by_cases h2 : (schedStates (bankStep z (B * (z + t))) ⟨B, 0⟩
              j).rest ≤ 1 / 100
          · rw [if_neg h1, if_pos h2]
            exact (hb j).1
          · rw [if_neg h1, if_neg h2]
            exact hm j
    · have hrow : ∀ m, (bankRow B z t m).rest = 0 := by
        intro m
        unfold bankRow
        rw [if_neg hg]
      rw [hrow j, hrow (j + 1)]
      exact ⟨le_rfl, le_rfl⟩
  have hann : (∀ j, 1 ≤ j → 0 ≤ (kfwRowApp .annuitaet r N tf D Z j).rest ∧
      (kfwRowApp .annuitaet r N tf D Z (j + 1)).rest
        ≤ (kfwRowApp .annuitaet r N tf D Z j).rest) ∧
      (kfwRowApp .annuitaet r N tf D Z N).rest = 0 := by
    by_cases hD : 0 < D
    · have hchar := app_ann_row_rest r N tf D Z hD
      rcases Nat.eq_zero_or_pos tf with htf0 | htf
      · -- no grace years: the annuity is computed and first paid in year 1,
        -- then recomputed on the grant-reduced balance
        subst htf0
        obtain ⟨T, hTdef⟩ : ∃ T, T
            = if D < calculate_annuity D r N - D * r then D
              else calculate_annuity D r N - D * r := ⟨_, rfl⟩
        have hst1 : schedStates (kfwStepApp .annuitaet r N 0 Z) ⟨D, 0⟩ 1
            = ⟨max 0 (D - T - Z),
               if 0 < max 0 (D - T - Z)
               then calculate_annuity (max 0 (D - T - Z)) r (N - 1)
               else calculate_annuity D r N⟩ := by
          show (kfwStepApp .annuitaet r N 0 Z 1 ⟨D, 0⟩).2 = _
          rw [app_step_ann_year1_tf0 r N Z D T hN hTdef]
        have hstnn := app_state_rest_nonneg .annuitaet r N 0 Z D hD.le
        by_cases hSmall : max 0 (D - T - Z) ≤ 1 / 100
        · have hfreeze : (schedStates (kfwStepApp .annuitaet r N 0 Z) ⟨D, 0⟩
              1).rest ≤ 1 / 100 := by
            rw [hst1]
            exact hSmall
          have hconst := app_frozen_state .annuitaet r N 0 Z D hfreeze
          have hstrest : ∀ j, 1 ≤ j →
              (schedStates (kfwStepApp .annuitaet r N 0 Z) ⟨D, 0⟩ j).rest
                = max 0 (D - T - Z) := by
            intro j hj
            rw [hconst j hj, hst1]
          have hstmono : ∀ j, 1 ≤ j →
              (schedStates (kfwStepApp .annuitaet r N 0 Z) ⟨D, 0⟩
                  (j + 1)).rest
                ≤ (schedStates (kfwStepApp .annuitaet r N 0 Z) ⟨D, 0⟩
                    j).rest := by
            intro j hj
            rw [hconst (j + 1) (by omega), hconst j hj]
          refine ⟨rows_nonneg_mono _ _ hstnn hstmono hchar, ?_⟩
          rw [hchar N (by omega),
            if_pos (And.intro
              (by rw [hstrest (N - 1) (by omega)]; exact hSmall)
              (show 1 < N by omega))]
        · have hS0 : 0 < max 0 (D - T - Z) :=
            lt_trans (by norm_num) (not_le.mp hSmall)
          have hannu_eq : calculate_annuity (max 0 (D - T - Z)) r (N - 1)
              = annuityFormula r (N - 1) (max 0 (D - T - Z)) := by
            unfold calculate_annuity
            rw [if_neg (show ¬(max 0 (D - T - Z) ≤ 0 ∨ N - 1 = 0) from fun h =>
              h.elim (fun h1 => absurd hS0 (not_lt.mpr h1))
                (fun h2 => by omega))]
          have hanchor : schedStates (kfwStepApp .annuitaet r N 0 Z) ⟨D, 0⟩ 1
              = ⟨max 0 (D - T - Z),
                 annuityFormula r (N - 1) (max 0 (D - T - Z))⟩ := by
            rw [hst1, if_pos hS0, hannu_eq]
          obtain ⟨g, hg0, hgstate, hgstep⟩ :=
            app_ann_payment_phase r N 0 Z D 1 (max 0 (D - T - Z))
              (annuityFormula r (N - 1) (max 0 (D - T - Z))) le_rfl
              (by omega) (fun j hj => by omega) hanchor
          obtain ⟨hbound, hgmono, hpayoff⟩ :=
            annuity_loop r (max 0 (D - T - Z)) (N - 1) g hr hS0 (by omega)
              hg0 (fun k _ => hgstep k)
          have hgn : g (N - 1) ≤ 1 / 100 := by
            rcases hpayoff with h | h
            · have hstep := hgstep (N - 1 - 1)
              rw [show N - 1 - 1 + 1 = N - 1 by omega] at hstep
              rw [hstep, if_pos h]
              exact h
            · rw [h]
              norm_num
          have hfrozen : ∀ m, N - 1 ≤ m → g m = g (N - 1) := by
            intro m hm
            induction m, hm using Nat.le_induction with
            | base => rfl
            | succ m hm ih => rw [hgstep m, ih, if_pos hgn]
          have hgmono_all : ∀ k, g (k + 1) ≤ g k := by
            intro k
            rcases Nat.lt_or_ge k (N - 1) with hk | hk
            · exact hgmono k (by omega)
            · rw [hfrozen k hk, hfrozen (k + 1) (by omega)]
          have hstrest : ∀ j, 1 ≤ j →
              (schedStates (kfwStepApp .annuitaet r N 0 Z) ⟨D, 0⟩ j).rest
                = g (j - 1) := by
            intro j hj
            have h := hgstate (j - 1)
            rw [show 1 + (j - 1) = j by omega] at h
            rw [h]
          have hstmono : ∀ j, 1 ≤ j →
              (schedStates (kfwStepApp .annuitaet r N 0 Z) ⟨D, 0⟩
                  (j + 1)).rest
                ≤ (schedStates (kfwStepApp .annuitaet r N 0 Z) ⟨D, 0⟩
                    j).rest := by
            intro j hj
            rw [hstrest (j + 1) (by omega), hstrest j hj,
              show j + 1 - 1 = j from rfl]
            have h := hgmono_all (j - 1)
            rwa [show j - 1 + 1 = j by omega] at h
          refine ⟨rows_nonneg_mono _ _ hstnn hstmono hchar, ?_⟩
          rw [hchar N (by omega)]
          split_ifs with h1
          · rfl
          · rw [hstrest N (by omega)]
            rcases hpayoff with h | h
            · exfalso
              apply h1
              refine ⟨?_, by omega⟩
              rw [hstrest (N - 1) (by omega)]
              exact h
            · exact h
      · -- at least one grace year
        by_cases hSmall : max 0 (D - Z) ≤ 1 / 100
        · have hst1 := app_ann_state1 r N tf Z D hD.le htf htfN
          have hconst : ∀ j, 1 ≤ j →
              schedStates (kfwStepApp .annuitaet r N tf Z) ⟨D, 0⟩ j
                = schedStates (kfwStepApp .annuitaet r N tf Z) ⟨D, 0⟩ 1 :=
            app_frozen_state .annuitaet r N tf Z D
              (by rw [hst1]; exact hSmall)
          have hstrest : ∀ j, 1 ≤ j →
              (schedStates (kfwStepApp .annuitaet r N tf Z) ⟨D, 0⟩ j).rest
                = max 0 (D - Z) := by
            intro j hj
            rw [hconst j hj, hst1]
          have hstmono : ∀ j, 1 ≤ j →
              (schedStates (kfwStepApp .annuitaet r N tf Z) ⟨D, 0⟩
                  (j + 1)).rest
                ≤ (schedStates (kfwStepApp .annuitaet r N tf Z) ⟨D, 0⟩
                    j).rest := by
            intro j hj
            rw [hconst (j + 1) (by omega), hconst j hj]
          have hstnn := app_state_rest_nonneg .annuitaet r N tf Z D hD.le
          refine ⟨rows_nonneg_mono _ _ hstnn hstmono hchar, ?_⟩
          rw [hchar N (by omega),
            if_pos (And.intro
              (by rw [hstrest (N - 1) (by omega)]; exact hSmall)
              (show 1 < N by omega))]
        · -- genuine amortization phase after the grace years
          obtain ⟨g, hg0, hgstate, hgstep⟩ :=
            app_ann_phase r N tf Z D hD.le htf htfN hSmall
          have hS0 : 0 < max 0 (D - Z) :=
            lt_trans (by norm_num) (not_le.mp hSmall)
          obtain ⟨hbound, hgmono, hpayoff⟩ :=
            annuity_loop r (max 0 (D - Z)) (N - tf) g hr hS0 (by omega) hg0
              (fun k _ => hgstep k)
          have hgn : g (N - tf) ≤ 1 / 100 := by
            rcases hpayoff with h | h
            · have hstep := hgstep (N - tf - 1)
              rw [show N - tf - 1 + 1 = N - tf by omega] at hstep
              rw [hstep, if_pos h]
              exact h
            · rw [h]
              norm_num
          have hfrozen : ∀ m, N - tf ≤ m → g m = g (N - tf) := by
            intro m hm
            induction m, hm using Nat.le_induction with
            | base => rfl
            | succ m hm ih => rw [hgstep m, ih, if_pos hgn]
          have hgmono_all : ∀ k, g (k + 1) ≤ g k := by
            intro k
            rcases Nat.lt_or_ge k (N - tf) with hk | hk
            · exact hgmono k (by omega)
            · rw [hfrozen k hk, hfrozen (k + 1) (by omega)]
          have hstrest : ∀ j, 1 ≤ j →
              (schedStates (kfwStepApp .annuitaet r N tf Z) ⟨D, 0⟩ j).rest
                = if j ≤ tf then max 0 (D - Z) else g (j - tf) := by
            intro j hj
            rcases le_or_lt j tf with hjtf | hjtf
            · rw [if_pos hjtf, app_ann_state_grace r N tf Z D j hj hjtf,
                app_ann_state1 r N tf Z D hD.le htf htfN]
            · rw [if_neg (not_le.mpr hjtf)]
              have h := hgstate (j - tf) (by omega)
              rw [show tf + (j - tf) = j by omega] at h
              rw [h]
          have hstnn := app_state_rest_nonneg .annuitaet r N tf Z D hD.le
          have hstmono : ∀ j, 1 ≤ j →
              (schedStates (kfwStepApp .annuitaet r N tf Z) ⟨D, 0⟩
                  (j + 1)).rest
                ≤ (schedStates (kfwStepApp .annuitaet r N tf Z) ⟨D, 0⟩
                    j).rest := by
            intro j hj
            rw [hstrest j hj, hstrest (j + 1) (by omega)]
            rcases le_or_lt (j + 1) tf with h1 | h1
            · rw [if_pos h1, if_pos (show j ≤ tf by omega)]
            · rw [if_neg (not_le.mpr h1)]
              rcases le_or_lt j tf with h2 | h2
              · rw [if_pos h2, show j + 1 - tf = 1 by omega]
                calc g 1 ≤ g 0 := hgmono_all 0
                  _ = max 0 (D - Z) := hg0
              · rw [if_neg (not_le.mpr h2),
                  show j + 1 - tf = (j - tf) + 1 by omega]
                exact hgmono_all (j - tf)
          refine ⟨rows_nonneg_mono _ _ hstnn hstmono hchar, ?_⟩
          rw [hchar N (by omega)]
          split_ifs with h1
          · rfl
          · rw [hstrest N (by omega), if_neg (show ¬N ≤ tf by omega)]
            rcases hpayoff with h | h
            · exfalso
              apply h1
              refine ⟨?_, by omega⟩
              rw [hstrest (N - 1) (by omega)]
              by_cases h3 : N - 1 ≤ tf
              · rw [if_pos h3]
                exact absurd
                  (by rwa [show N - tf - 1 = 0 by omega, hg0] at h) hSmall
              · rw [if_neg h3, show N - 1 - tf = N - tf - 1 by omega]
                exact h
            · exact h
    · have hrow : ∀ m, (kfwRowApp .annuitaet r N tf D Z m).rest = 0 := by
        intro m
        unfold kfwRowApp
        rw [if_neg hD]
      exact ⟨fun j hj => by rw [hrow j, hrow (j + 1)]; exact ⟨le_rfl, le_rfl⟩,
        hrow N⟩
  have hbul : (∀ j, 1 ≤ j → 0 ≤ (kfwRowApp .endfaellig r N tf D Z j).rest ∧
      (kfwRowApp .endfaellig r N tf D Z (j + 1)).rest
        ≤ (kfwRowApp .endfaellig r N tf D Z j).rest) ∧
      (kfwRowApp .endfaellig r N tf D Z N).rest = 0 := by
    by_cases hD : 0 < D
    · have hchar := app_bullet_row_rest r N tf D Z hD
      have hstnn := app_state_rest_nonneg .endfaellig r N 0 Z D hD.le
      by_cases hDZ : 1 / 100 < D - Z
      · -- active bullet loan: balance D-Z until maturity, then 0
        have hD1 : 1 / 100 < D := by linarith
        have hmid := bullet_state_mid r N Z D hD1 hZ hDZ hN
        have hlate := bullet_state_late r N Z D hD1 hZ hDZ hN
        have hstrest : ∀ j, 1 ≤ j →
            (schedStates (kfwStepApp .endfaellig r N 0 Z) ⟨D, 0⟩ j).rest
              = if j < N then D - Z else 0 := by
          intro j hj
          rcases Nat.lt_or_ge j N with h1 | h1
          · rw [if_pos h1, hmid j hj h1]
          · rw [if_neg (show ¬j < N by omega), hlate j h1]
        have hstmono : ∀ j, 1 ≤ j →
            (schedStates (kfwStepApp .endfaellig r N 0 Z) ⟨D, 0⟩
                (j + 1)).rest
              ≤ (schedStates (kfwStepApp .endfaellig r N 0 Z) ⟨D, 0⟩
                  j).rest := by
          intro j hj
          rw [hstrest (j + 1) (by omega), hstrest j hj]
          rcases Nat.lt_or_ge (j + 1) N with h1 | h1
          · rw [if_pos h1, if_pos (show j < N by omega)]
          · rw [if_neg (show ¬j + 1 < N by omega)]
            split_ifs with h2
            · linarith
            · exact le_rfl
        refine ⟨rows_nonneg_mono _ _ hstnn hstmono hchar, ?_⟩
        have hc : ¬((schedStates (kfwStepApp .endfaellig r N 0 Z) ⟨D, 0⟩
            (N - 1)).rest ≤ 1 / 100 ∧ 1 < N) := by
          rintro ⟨h1, -⟩
          rw [hstrest (N - 1) (by omega),
            if_pos (show N - 1 < N by omega)] at h1
          exact absurd h1 (not_le.mpr hDZ)
        rw [hchar N (by omega), if_neg hc, hstrest N (by omega),
          if_neg (show ¬N < N by omega)]
      · -- grant leaves at most the epsilon: frozen after year 1
        have hst1 : schedStates (kfwStepApp .endfaellig r N 0 Z) ⟨D, 0⟩ 1
            = ⟨max 0 (D - Z), 0⟩ := by
          show (kfwStepApp .endfaellig r N 0 Z 1 ⟨D, 0⟩).2 = _
          rw [app_step_bullet_year1 r N Z D hD.le hN]
        have hSmall : max 0 (D - Z) ≤ 1 / 100 :=
          max_le (by norm_num) (not_lt.mp hDZ)
        have hconst := app_frozen_state .endfaellig r N 0 Z D
          (by rw [hst1]; exact hSmall)
        have hstrest : ∀ j, 1 ≤ j →
            (schedStates (kfwStepApp .endfaellig r N 0 Z) ⟨D, 0⟩ j).rest
              = max 0 (D - Z) := by
          intro j hj
          rw [hconst j hj, hst1]
        have hstmono : ∀ j, 1 ≤ j →
            (schedStates (kfwStepApp .endfaellig r N 0 Z) ⟨D, 0⟩
                (j + 1)).rest
              ≤ (schedStates (kfwStepApp .endfaellig r N 0 Z) ⟨D, 0⟩
                  j).rest := by
          intro j hj
          rw [hconst (j + 1) (by omega), hconst j hj]
        refine ⟨rows_nonneg_mono _ _ hstnn hstmono hchar, ?_⟩
        rw [hchar N (by omega),
          if_pos (And.intro
            (by rw [hstrest (N - 1) (by omega)]; exact hSmall)
            (show 1 < N by omega))]
    · have hrow : ∀ m, (kfwRowApp .endfaellig r N tf D Z m).rest = 0 := by
        intro m
        unfold kfwRowApp
        rw [if_neg hD]
      exact ⟨fun j hj => by rw [hrow j, hrow (j + 1)]; exact ⟨le_rfl, le_rfl⟩,
        hrow N⟩
  exact ⟨hbank, hann.1, hann.2, hbul.1, hbul.2⟩

/-- Witness for C8 at a concrete input: bank loan 100000 at 4.2% interest,
1% amortization; KfW loan 100000 at 4% over 30 years with grace period 4
and grant 20000, in both repayment regimes. -/
theorem C8_loan_invariants_witness :
    (∀ j, 1 ≤ j → 0 ≤ (bankRow 100000 (21 / 500) (1 / 100) j).rest ∧
      (bankRow 100000 (21 / 500) (1 / 100) (j + 1)).rest
        ≤ (bankRow 100000 (21 / 500) (1 / 100) j).rest) ∧
    (∀ j, 1 ≤ j →
      0 ≤ (kfwRowApp .annuitaet (1 / 25) 30 4 100000 20000 j).rest ∧
      (kfwRowApp .annuitaet (1 / 25) 30 4 100000 20000 (j + 1)).rest
        ≤ (kfwRowApp .annuitaet (1 / 25) 30 4 100000 20000 j).rest) ∧
    (kfwRowApp .annuitaet (1 / 25) 30 4 100000 20000 30).rest = 0 ∧
    (∀ j, 1 ≤ j →
      0 ≤ (kfwRowApp .endfaellig (1 / 25) 30 4 100000 20000 j).rest ∧
      (kfwRowApp .endfaellig (1 / 25) 30 4 100000 20000 (j + 1)).rest
        ≤ (kfwRowApp .endfaellig (1 / 25) 30 4 100000 20000 j).rest) ∧
    (kfwRowApp .endfaellig (1 / 25) 30 4 100000 20000 30).rest = 0 :=
  C8_loan_invariants 100000 (21 / 500) (1 / 100) (1 / 25) 20000 100000 30 4
    (by norm_num) (by norm_num) (by norm_num) (by norm_num) (by omega)
    (by omega)
